import Mathlib

/-!
Verification development for the propertyhub repository.

The repository ships a test suite (`src/tests/test_bash_server.py`), a
resource-limit test script (`src/test_resource_limits.py`) and two template
conversion scripts (`src/scripts/`).  The command/file-execution service
`bash_server.py` exercised by the test suite is not part of the visible
sources; where a claim depends on it, the corresponding definitions are
modelled from the specification (`spec.md`) and are marked as such in their
doc comments.  Everything else is translated directly from the Python
sources.

Modelling conventions:
* text content is a `List Char`; machine time is `Int` (the Python sources
  use float seconds, but every property checked is order-theoretic);
* Python character classes are restricted to their ASCII meaning, which
  covers all inputs appearing in the repository and its tests;
* fallible operations return `Except`/`Option` or a `ToolResult` with an
  `error` field.
-/

/-- Check that `pre` is an initial segment of `s` (plain structural recursion,
used to express "starts with" for lists). -/
def startsL {α : Type} [DecidableEq α] : List α → List α → Bool
  | [], _ => true
  | _ :: _, [] => false
  | p :: ps, c :: cs => decide (p = c) && startsL ps cs

/-- Check that `nd` occurs as a contiguous run inside `hay`. -/
def containsL {α : Type} [DecidableEq α] (nd : List α) : List α → Bool
  | [] => decide (nd = [])
  | c :: cs => startsL nd (c :: cs) || containsL nd cs

/-- Check that `nd` occurs inside string `hay` (wrapper over `containsL`). -/
def containsS (nd hay : String) : Bool := containsL nd.data hay.data

/-- Result value shared by both tools.  Modelled from the spec: an
immutable tri-field outcome with `output`, `error` and `system` fields
(spec section 3, "Result"); the concrete `ToolResult` class lives in the
absent `bash_server.py`. -/
structure ToolResult where
  output : Option String
  error : Option String
  system : Option String
deriving Repr, DecidableEq

/-- Result with every field unset. -/
def ToolResult.empty : ToolResult := ⟨none, none, none⟩

/-- Result carrying only an `error` message. -/
def ToolResult.mkError (msg : String) : ToolResult := ⟨none, some msg, none⟩

/-- Result carrying only an `output` message. -/
def ToolResult.mkOutput (msg : String) : ToolResult := ⟨some msg, none, none⟩

/-!
## Session expiry (`MockSession` in `src/test_resource_limits.py`)

Translated from the source: `_last_activity` is set at construction and by
`touch()`; `is_expired(ttl)` returns `(time.time() - self._last_activity) >
ttl_seconds`.  The wall clock `time.time()` is passed explicitly as `now`.
-/

/-- Session state of `MockSession` (`src/test_resource_limits.py`,
lines 73-82). -/
structure MockSession where
  created_at : Int
  last_activity : Int
deriving Repr, DecidableEq

/-- Construct a fresh session at time `now` (both timestamps set to `now`,
as in `MockSession.__init__`). -/
def MockSession.fresh (now : Int) : MockSession := ⟨now, now⟩

/-- Update the last-activity timestamp (`MockSession.touch`). -/
def MockSession.touch (s : MockSession) (now : Int) : MockSession :=
  { s with last_activity := now }

/-- Expiry predicate (`MockSession.is_expired`): elapsed time strictly
greater than the TTL. -/
def MockSession.is_expired (s : MockSession) (now ttl : Int) : Bool :=
  decide (now - s.last_activity > ttl)

/-- C9: a session's expiry predicate returns true exactly when the elapsed
time since last activity is strictly greater than the TTL; a fresh session
is not expired, a touched session is not expired, a session idle for
exactly the TTL is not expired, and a session idle longer than the TTL is
expired. -/
theorem C9_session_expiry (now last ttl : Int) (httl : 0 ≤ ttl) :
    (MockSession.is_expired ⟨now - last, last⟩ now ttl = true ↔ now - last > ttl) ∧
    MockSession.is_expired (MockSession.fresh now) now ttl = false ∧
    (∀ s : MockSession, (s.touch now).is_expired now ttl = false) ∧
    (now - last = ttl → MockSession.is_expired ⟨now - last, last⟩ now ttl = false) ∧
    (now - last > ttl → MockSession.is_expired ⟨now - last, last⟩ now ttl = true) := by
  refine ⟨?_, ?_, ?_, ?_, ?_⟩
  · simp [MockSession.is_expired]
  · simp [MockSession.is_expired, MockSession.fresh]; omega
  · intro s; simp [MockSession.is_expired, MockSession.touch]; omega
  · intro h; simp [MockSession.is_expired]; omega
  · intro h; simp [MockSession.is_expired]; omega

/-- C9 witness: concrete instantiation at `now = 10`, `last = 3`,
`ttl = 5`. -/
theorem C9_session_expiry_witness :
    (0 : Int) ≤ 5 ∧
    ((MockSession.is_expired ⟨10 - 3, 3⟩ 10 5 = true ↔ (10 : Int) - 3 > 5) ∧
      MockSession.is_expired (MockSession.fresh 10) 10 5 = false ∧
      (∀ s : MockSession, (s.touch 10).is_expired 10 5 = false) ∧
      ((10 : Int) - 3 = 5 → MockSession.is_expired ⟨10 - 3, 3⟩ 10 5 = false) ∧
      ((10 : Int) - 3 > 5 → MockSession.is_expired ⟨10 - 3, 3⟩ 10 5 = true)) :=
  ⟨by decide, C9_session_expiry 10 3 5 (by decide)⟩

/-!
## Sentinel generation (`_generate_sentinel` in `src/test_resource_limits.py`)

Translated from the source: `f"__SENTINEL_{uuid.uuid4().hex}__"`.
`uuid.uuid4().hex` is the zero-padded 32-digit lowercase hexadecimal
representation of a random 128-bit identifier; the identifier is passed
explicitly as the parameter `u`.
-/

/-- Lowercase hexadecimal digit characters. -/
def hexChar (d : Nat) : Char := "0123456789abcdef".data.getD d '*'

/-- Inverse of `hexChar` on hexadecimal digits. -/
def hexVal (c : Char) : Nat := "0123456789abcdef".data.indexOf c

/-- Little-endian base-16 digits of `u`, zero-padded to 32 digits. -/
def uuidHexDigits (u : Nat) : List Nat :=
  Nat.digits 16 u ++ List.replicate (32 - (Nat.digits 16 u).length) 0

/-- The 32-character lowercase hex string of the 128-bit value `u`
(big-endian character order, as produced by `uuid.uuid4().hex`). -/
def uuid4_hex (u : Nat) : List Char := ((uuidHexDigits u).map hexChar).reverse

/-- Sentinel token generator (`src/test_resource_limits.py`, lines 50-52),
with the random 128-bit identifier made explicit. -/
def _generate_sentinel (u : Nat) : String :=
  "__SENTINEL_" ++ String.mk (uuid4_hex u) ++ "__"

theorem hexVal_hexChar : ∀ d, d < 16 → hexVal (hexChar d) = d := by decide

theorem uuidHexDigits_length (u : Nat) (hu : u < 2 ^ 128) :
    (uuidHexDigits u).length = 32 := by
  have hle : (Nat.digits 16 u).length ≤ 32 := by
    by_cases h0 : u = 0
    · simp [h0]
    · rw [Nat.digits_len 16 u (by norm_num) h0]
      have : Nat.log 16 u < 32 := Nat.log_lt_of_lt_pow h0 (by
        have : (16 : ℕ) ^ 32 = 2 ^ 128 := by norm_num
        omega)
      omega
  simp only [uuidHexDigits, List.length_append, List.length_replicate]
  omega

theorem uuidHexDigits_lt (u : Nat) : ∀ d ∈ uuidHexDigits u, d < 16 := by
  intro d hd
  rcases List.mem_append.mp hd with h | h
  · exact Nat.digits_lt_base (by norm_num) h
  · have := List.eq_of_mem_replicate h
    omega

theorem ofDigits_replicate_zero (b k : Nat) :
    Nat.ofDigits b (List.replicate k 0) = 0 := by
  induction k with
  | zero => simp [Nat.ofDigits]
  | succ n ih => simp [List.replicate, Nat.ofDigits_cons, ih]

theorem ofDigits_uuidHexDigits (u : Nat) :
    Nat.ofDigits 16 (uuidHexDigits u) = u := by
  unfold uuidHexDigits
  rw [show (Nat.ofDigits 16 (Nat.digits 16 u ++
        List.replicate (32 - (Nat.digits 16 u).length) 0) : ℕ) =
      Nat.ofDigits 16 (Nat.digits 16 u) +
        16 ^ (Nat.digits 16 u).length *
          Nat.ofDigits 16 (List.replicate (32 - (Nat.digits 16 u).length) 0)
    from by exact_mod_cast Nat.ofDigits_append]
  rw [Nat.ofDigits_digits, ofDigits_replicate_zero]
  omega

theorem map_hexVal_hexChar (w : Nat) :
    (uuidHexDigits w).map (fun d => hexVal (hexChar d)) = uuidHexDigits w := by
  have h : (uuidHexDigits w).map (fun d => hexVal (hexChar d)) =
      (uuidHexDigits w).map id :=
    List.map_congr_left fun d hd => hexVal_hexChar d (uuidHexDigits_lt w d hd)
  simpa using h

theorem uuid4_hex_inj (u v : Nat) (h : uuid4_hex u = uuid4_hex v) : u = v := by
  have hrev : (uuidHexDigits u).map hexChar = (uuidHexDigits v).map hexChar :=
    List.reverse_injective h
  have hmap := congrArg (List.map hexVal) hrev
  rw [List.map_map, List.map_map] at hmap
  simp only [Function.comp_def] at hmap
  rw [map_hexVal_hexChar u, map_hexVal_hexChar v] at hmap
  calc u = Nat.ofDigits 16 (uuidHexDigits u) := (ofDigits_uuidHexDigits u).symm
    _ = Nat.ofDigits 16 (uuidHexDigits v) := by rw [hmap]
    _ = v := ofDigits_uuidHexDigits v

theorem uuid4_hex_length (u : Nat) (hu : u < 2 ^ 128) :
    (uuid4_hex u).length = 32 := by
  simp [uuid4_hex, uuidHexDigits_length u hu]

theorem sentinel_data (u : Nat) :
    (_generate_sentinel u).data = "__SENTINEL_".data ++ uuid4_hex u ++ "__".data := by
  simp [_generate_sentinel, String.data_append]

/-- C2: sentinel tokens for distinct 128-bit identifiers are distinct (hence
pairwise distinct across any number of generations drawing distinct
identifiers), every token starts with the prefix characters
`__SENTINEL_`, ends with the suffix characters `__`, and has constant
length 45. -/
theorem C2_sentinel_tokens (u v : Nat) (hu : u < 2 ^ 128) (hv : v < 2 ^ 128)
    (huv : u ≠ v) :
    _generate_sentinel u ≠ _generate_sentinel v ∧
    (_generate_sentinel u).length = 45 ∧
    (_generate_sentinel u).data.take 11 = "__SENTINEL_".data ∧
    (_generate_sentinel u).data.drop 43 = "__".data := by
  refine ⟨?_, ?_, ?_, ?_⟩
  · intro heq
    have hdata := congrArg String.data heq
    rw [sentinel_data u, sentinel_data v] at hdata
    have h1 : "__SENTINEL_".data ++ uuid4_hex u = "__SENTINEL_".data ++ uuid4_hex v :=
      List.append_cancel_right hdata
    have h2 : uuid4_hex u = uuid4_hex v := List.append_cancel_left h1
    exact huv (uuid4_hex_inj u v h2)
  · show (_generate_sentinel u).data.length = 45
    rw [sentinel_data u]
    simp [uuid4_hex_length u hu]
  · rw [sentinel_data u, List.append_assoc,
      List.take_append_of_le_length (by simp)]
    decide
  · rw [sentinel_data u]
    have h43 : ("__SENTINEL_".data ++ uuid4_hex u).length = 43 := by
      simp [uuid4_hex_length u hu]
    rw [← h43, List.drop_left]

/-- C2 witness: concrete instantiation at identifiers `0` and `1`. -/
theorem C2_sentinel_tokens_witness :
    (0 : Nat) < 2 ^ 128 ∧ (1 : Nat) < 2 ^ 128 ∧ (0 : Nat) ≠ 1 ∧
    (_generate_sentinel 0 ≠ _generate_sentinel 1 ∧
      (_generate_sentinel 0).length = 45 ∧
      (_generate_sentinel 0).data.take 11 = "__SENTINEL_".data ∧
      (_generate_sentinel 0).data.drop 43 = "__".data) :=
  ⟨by norm_num, by norm_num, by decide,
    C2_sentinel_tokens 0 1 (by norm_num) (by norm_num) (by decide)⟩

/-!
## Sandboxed file tool

Modelled from the spec: `bash_server.py` (class `FileTool`) is absent from
`src/`; only its tests remain.  The model below follows spec sections 3
("File path resolution context", "Undo history"), 4.3 and 7: paths resolve
against a workspace root and are rejected before any filesystem access when
the resolution escapes the root; file content is a byte list; destructive
edits snapshot the prior content into a one-level undo history.
-/

/-- Caller-supplied path: an absolute flag plus raw components (`..` and `.`
still present). -/
structure CallerPath where
  absolute : Bool
  comps : List String
deriving Repr, DecidableEq

/-- Modelled from the spec: resolve the component list, interpreting `..` as
popping one component and dropping `.`/empty components (spec section 3,
"Resolution invariant").  Symlink traversal is outside the model. -/
def normalizeComps : List String → List String → List String
  | acc, [] => acc
  | acc, c :: rest =>
    if c = ".." then normalizeComps acc.dropLast rest
    else if c = "." ∨ c = "" then normalizeComps acc rest
    else normalizeComps (acc ++ [c]) rest

/-- Modelled from the spec: resolve a caller path against the workspace
root; absolute paths override the root. -/
def resolvePath (root : List String) (p : CallerPath) : List String :=
  normalizeComps (if p.absolute then [] else root) p.comps

/-- Modelled from the spec: validate that the resolved path is a descendant
of the workspace root; otherwise reject with an "invalid"/"outside" error
before any filesystem access (spec sections 3 and 4.3). -/
def validatePath (root : List String) (p : CallerPath) : Except String (List String) :=
  let rp := resolvePath root p
  if startsL root rp then Except.ok rp
  else Except.error "invalid path: resolves outside the workspace root"

/-- True when the caller path escapes the workspace root. -/
def escapesRoot (root : List String) (p : CallerPath) : Bool :=
  !startsL root (resolvePath root p)

/-- Resolved paths inside the workspace. -/
abbrev FPath := List String

/-- Association-list lookup. -/
def lookupA {κ β : Type} [DecidableEq κ] (k : κ) : List (κ × β) → Option β
  | [] => none
  | (k', v) :: t => if k' = k then some v else lookupA k t

/-- Association-list update (replacing any previous binding of `k`). -/
def setA {κ β : Type} [DecidableEq κ] (k : κ) (v : β) (l : List (κ × β)) :
    List (κ × β) :=
  (k, v) :: l.filter (fun e => decide (e.1 ≠ k))

/-- Association-list removal of every binding of `k`. -/
def removeA {κ β : Type} [DecidableEq κ] (k : κ) (l : List (κ × β)) : List (κ × β) :=
  l.filter (fun e => decide (e.1 ≠ k))

/-- Modelled from the spec: filesystem state seen by the file tool — a map
from resolved path to byte content plus the one-level undo history keyed by
resolved path (spec section 3, "Undo history"). -/
structure FSState where
  files : List (FPath × List Nat)
  undoHistory : List (FPath × List Nat)
deriving Repr, DecidableEq

/-- A path is a directory when some stored file lies strictly below it. -/
def isDirF (fs : FSState) (p : FPath) : Bool :=
  fs.files.any (fun e => decide (e.1 ≠ p) && startsL p e.1)

/-!
### Base64 encoding

Modelled from the spec: binary mode transfers a "base64-style encoded
representation" (spec section 4.3, `read`/`write`).  Standard base64 with
`=` padding, on byte lists.
-/

/-- Base64 alphabet. -/
def b64Alphabet : List Char :=
  "ABCDEFGHIJKLMNOPQRSTUVWXYZabcdefghijklmnopqrstuvwxyz0123456789+/".data

/-- Character of a six-bit value. -/
def sextetChar (n : Nat) : Char := b64Alphabet.getD n '*'

/-- Six-bit value of an alphabet character (`none` for non-alphabet
characters). -/
def charSextet (c : Char) : Option Nat :=
  if b64Alphabet.contains c then some (b64Alphabet.indexOf c) else none

/-- Base64-encode a byte list (standard three-bytes-to-four-chars groups
with `=` padding). -/
def b64encode : List Nat → List Char
  | [] => []
  | [a] => [sextetChar (a / 4), sextetChar (a % 4 * 16), '=', '=']
  | [a, b] => [sextetChar (a / 4), sextetChar (a % 4 * 16 + b / 16),
      sextetChar (b % 16 * 4), '=']
  | a :: b :: c :: rest =>
      sextetChar (a / 4) :: sextetChar (a % 4 * 16 + b / 16) ::
        sextetChar (b % 16 * 4 + c / 64) :: sextetChar (c % 64) :: b64encode rest


/-- Base64-decode a character list (strict: only alphabet characters and
trailing padding are accepted). -/
def b64decode : List Char → Option (List Nat)
  | [] => some []
  | c1 :: c2 :: c3 :: c4 :: rest =>
      (charSextet c1).bind fun v1 => (charSextet c2).bind fun v2 =>
        if c3 = '=' then
          if c4 = '=' ∧ rest = [] then some [v1 * 4 + v2 / 16] else none
        else
          (charSextet c3).bind fun v3 =>
            if c4 = '=' then
              if rest = [] then some [v1 * 4 + v2 / 16, v2 % 16 * 16 + v3 / 4]
              else none
            else
              (charSextet c4).bind fun v4 =>
                (b64decode rest).map fun bs =>
                  (v1 * 4 + v2 / 16) :: (v2 % 16 * 16 + v3 / 4) ::
                    (v3 % 4 * 64 + v4) :: bs
  | _ => none

theorem charSextet_sextetChar : ∀ n, n < 64 → charSextet (sextetChar n) = some n := by
  decide

theorem sextetChar_ne_pad : ∀ n, n < 64 → sextetChar n ≠ '=' := by decide

/-- Decoding inverts encoding on byte lists. -/
theorem b64decode_b64encode (bs : List Nat) (h : ∀ b ∈ bs, b < 256) :
    b64decode (b64encode bs) = some bs := by
  induction bs using b64encode.induct with
  | case1 => simp [b64encode, b64decode]
  | case2 a =>
    have ha : a < 256 := h a (by simp)
    have e1 : a / 4 * 4 + a % 4 * 16 / 16 = a := by omega
    simp [b64encode, b64decode, charSextet_sextetChar _ (show a / 4 < 64 by omega),
      charSextet_sextetChar _ (show a % 4 * 16 < 64 by omega), e1]
    omega
  | case3 a b =>
    have ha : a < 256 := h a (by simp)
    have hb : b < 256 := h b (by simp)
    have e1 : a / 4 * 4 + (a % 4 * 16 + b / 16) / 16 = a := by omega
    have e2 : (a % 4 * 16 + b / 16) % 16 * 16 + b % 16 * 4 / 4 = b := by omega
    simp [b64encode, b64decode, charSextet_sextetChar _ (show a / 4 < 64 by omega),
      charSextet_sextetChar _ (show a % 4 * 16 + b / 16 < 64 by omega),
      charSextet_sextetChar _ (show b % 16 * 4 < 64 by omega),
      sextetChar_ne_pad _ (show b % 16 * 4 < 64 by omega), e1, e2]
    omega
  | case4 a b c rest ih =>
    have ha : a < 256 := h a (by simp)
    have hb : b < 256 := h b (by simp)
    have hc : c < 256 := h c (by simp)
    have hrest : ∀ x ∈ rest, x < 256 := fun x hx => h x (by simp [hx])
    have e1 : a / 4 * 4 + (a % 4 * 16 + b / 16) / 16 = a := by omega
    have e2 : (a % 4 * 16 + b / 16) % 16 * 16 + (b % 16 * 4 + c / 64) / 4 = b := by
      omega
    have e3 : (b % 16 * 4 + c / 64) % 4 * 64 + c % 64 = c := by omega
    simp [b64encode, b64decode, charSextet_sextetChar _ (show a / 4 < 64 by omega),
      charSextet_sextetChar _ (show a % 4 * 16 + b / 16 < 64 by omega),
      charSextet_sextetChar _ (show b % 16 * 4 + c / 64 < 64 by omega),
      charSextet_sextetChar _ (show c % 64 < 64 by omega),
      sextetChar_ne_pad _ (show b % 16 * 4 + c / 64 < 64 by omega),
      sextetChar_ne_pad _ (show c % 64 < 64 by omega),
      ih hrest, e1, e2, e3]

/-!
### File tool operations

Modelled from the spec (section 4.3); filesystem content is a byte list,
text strings convert through Unicode scalar values.
-/

/-- Bytes of a text string (Unicode scalar values, as stored by text-mode
writes). -/
def strBytes (s : String) : List Nat := s.data.map Char.toNat

/-- Text string of stored bytes (inverse of `strBytes` on scalar values). -/
def bytesStr (bs : List Nat) : String := String.mk (bs.map Char.ofNat)

/-- File mode of `read`/`write` (spec section 4.3). -/
inductive FileMode where
  | textMode
  | binaryMode
deriving Repr, DecidableEq

/-- Fuel-driven count of non-overlapping occurrences of `old` (empty `old`
counts as zero occurrences). -/
def countOccF {α : Type} [DecidableEq α] (old : List α) : Nat → List α → Nat
  | 0, _ => 0
  | _ + 1, [] => 0
  | f + 1, c :: cs =>
    if startsL old (c :: cs) && !old.isEmpty then
      1 + countOccF old f (List.drop (old.length - 1) cs)
    else countOccF old f cs

/-- Count of non-overlapping occurrences of `old` within `s`. -/
def countOccL {α : Type} [DecidableEq α] (old s : List α) : Nat :=
  countOccF old s.length s

/-- Fuel-driven left-to-right replacement of every non-overlapping
occurrence of `old` by `new` (Python `str.replace` semantics for non-empty
`old`). -/
def replaceAllF {α : Type} [DecidableEq α] (old new : List α) : Nat → List α → List α
  | 0, s => s
  | _ + 1, [] => []
  | f + 1, c :: cs =>
    if startsL old (c :: cs) && !old.isEmpty then
      new ++ replaceAllF old new f (List.drop (old.length - 1) cs)
    else c :: replaceAllF old new f cs

/-- Replace every non-overlapping occurrence of `old` by `new` within
`s`. -/
def replaceAllL {α : Type} [DecidableEq α] (old new s : List α) : List α :=
  replaceAllF old new s.length s

/-- Split a byte list at newline bytes (value 10). -/
def splitNLB : List Nat → List (List Nat)
  | [] => [[]]
  | c :: cs =>
    if c = 10 then [] :: splitNLB cs
    else match splitNLB cs with
      | [] => [[c]]
      | l :: ls => (c :: l) :: ls

/-- Join byte lines with newline bytes. -/
def joinNLB : List (List Nat) → List Nat
  | [] => []
  | [l] => l
  | l :: ls => l ++ 10 :: joinNLB ls

/-- Modelled from the spec: `read(path, mode)` — fails if the path is not a
regular file; text mode returns the raw content, binary mode returns the
base64 encoding and marks `system` as `"binary"` (spec section 4.3). -/
def readOp (fs : FSState) (rp : FPath) (mode : FileMode) : ToolResult :=
  match lookupA rp fs.files with
  | none => ToolResult.mkError "invalid path: not a file"
  | some content =>
    match mode with
    | .textMode => ToolResult.mkOutput (bytesStr content)
    | .binaryMode => ⟨some (String.mk (b64encode content)), none, some "binary"⟩

/-- Modelled from the spec: `write(path, content, mode)` — creates or
truncates the target; binary mode decodes the base64 payload first; content
larger than the maximum file size is rejected before writing (spec section
4.3). -/
def writeOp (fs : FSState) (rp : FPath) (content : String) (mode : FileMode)
    (maxSize : Nat) : FSState × ToolResult :=
  if content.data.length > maxSize then
    (fs, ToolResult.mkError "file too large: content exceeds the maximum file size")
  else match mode with
    | .textMode =>
      ({ fs with files := setA rp (strBytes content) fs.files },
        ToolResult.mkOutput "file written")
    | .binaryMode =>
      match b64decode content.data with
      | none => (fs, ToolResult.mkError "invalid binary content: not valid base64")
      | some bytes =>
        ({ fs with files := setA rp bytes fs.files },
          ToolResult.mkOutput "file written")

/-- Modelled from the spec: `create(path, content)` — like a text write but
fails with an "already exists" error when the target is present; never
overwrites (spec section 4.3). -/
def createOp (fs : FSState) (rp : FPath) (content : String)
    (maxSize : Nat) : FSState × ToolResult :=
  match lookupA rp fs.files with
  | some _ => (fs, ToolResult.mkError "file already exists")
  | none =>
    if content.data.length > maxSize then
      (fs, ToolResult.mkError "file too large: content exceeds the maximum file size")
    else
      ({ fs with files := setA rp (strBytes content) fs.files },
        ToolResult.mkOutput "file created")

/-- Modelled from the spec: `replace(path, old, new, all_occurrences)` —
"not found" when `old` is absent, "multiple occurrences" when more than one
match exists without the flag; otherwise substitutes and snapshots the
pre-edit content into the undo history (spec section 4.3). -/
def replaceOp (fs : FSState) (rp : FPath) (old new : List Nat)
    (allOccurrences : Bool) : FSState × ToolResult :=
  match lookupA rp fs.files with
  | none => (fs, ToolResult.mkError "invalid path: not a file")
  | some content =>
    let n := countOccL old content
    if n = 0 then (fs, ToolResult.mkError "old string not found in file")
    else if 1 < n ∧ !allOccurrences then
      (fs, ToolResult.mkError "multiple occurrences of old string found")
    else
      ({ files := setA rp (replaceAllL old new content) fs.files,
         undoHistory := setA rp content fs.undoHistory },
        ToolResult.mkOutput "replacement successful")

/-- Modelled from the spec: `undo(path)` — restores the most recent
snapshot and clears it; fails with "no undo history" when none exists
(spec sections 3 and 4.3). -/
def undoOp (fs : FSState) (rp : FPath) : FSState × ToolResult :=
  match lookupA rp fs.undoHistory with
  | none => (fs, ToolResult.mkError "no undo history for this file")
  | some snapshot =>
    ({ files := setA rp snapshot fs.files,
       undoHistory := removeA rp fs.undoHistory },
      ToolResult.mkOutput "undo successful")

/-- Modelled from the spec: `grep(pattern, path, case_sensitive,
recursive)` — on a file, matching lines with "no matches" via `output` on
zero hits; on a directory, requires `recursive=true` or fails with a
"recursive" hint; aggregates matches across files below the directory
otherwise (spec section 4.3). -/
def grepOp (fs : FSState) (rp : FPath) (pattern : String)
    (caseSensitive recursive : Bool) : ToolResult :=
  let norm : List Nat → List Nat := fun l =>
    if caseSensitive then l
    else l.map (fun b => (Char.toLower (Char.ofNat b)).toNat)
  let pat := norm (strBytes pattern)
  let matchesOf : List Nat → List (List Nat) := fun content =>
    (splitNLB content).filter (fun l => containsL pat (norm l))
  match lookupA rp fs.files with
  | some content =>
    let hits := matchesOf content
    if hits.isEmpty then ToolResult.mkOutput "no matches found"
    else ToolResult.mkOutput (bytesStr (joinNLB hits))
  | none =>
    if isDirF fs rp then
      if !recursive then
        ToolResult.mkError
          "path is a directory: pass recursive=true to search directories"
      else
        let entries := fs.files.filter (fun e => startsL rp e.1)
        let hits := (entries.map (fun e => matchesOf e.2)).flatten
        if hits.isEmpty then ToolResult.mkOutput "no matches found"
        else ToolResult.mkOutput (bytesStr (joinNLB hits))
    else ToolResult.mkError "invalid path: not a file"

/-- Modelled from the spec: `exists(path)` — the literal string `"True"` or
`"False"` in `output` (spec section 4.3). -/
def existsOp (fs : FSState) (rp : FPath) : ToolResult :=
  ToolResult.mkOutput
    (if (lookupA rp fs.files).isSome || isDirF fs rp then "True" else "False")

/-- File-tool request: command name plus arguments (spec section 4.3; the
operations exercised by the frozen claims). -/
inductive FileCmd where
  | readCmd (p : CallerPath) (mode : FileMode)
  | writeCmd (p : CallerPath) (content : String) (mode : FileMode)
  | createCmd (p : CallerPath) (content : String)
  | replaceCmd (p : CallerPath) (old new : String) (allOccurrences : Bool)
  | undoCmd (p : CallerPath)
  | grepCmd (pattern : String) (p : CallerPath) (caseSensitive recursive : Bool)
  | existsCmd (p : CallerPath)
deriving Repr, DecidableEq

/-- The caller path of a file-tool request. -/
def FileCmd.path : FileCmd → CallerPath
  | .readCmd p _ => p
  | .writeCmd p _ _ => p
  | .createCmd p _ => p
  | .replaceCmd p _ _ _ => p
  | .undoCmd p => p
  | .grepCmd _ p _ _ => p
  | .existsCmd p => p

/-- Modelled from the spec: the file tool's dispatch — every operation
validates its path first and is rejected before any filesystem access when
the resolution escapes the workspace root (spec sections 4.3 and 7). -/
def runFileCmd (root : FPath) (maxSize : Nat) (fs : FSState) (cmd : FileCmd) :
    FSState × ToolResult :=
  match validatePath root cmd.path with
  | .error e => (fs, ToolResult.mkError e)
  | .ok rp =>
    match cmd with
    | .readCmd _ mode => (fs, readOp fs rp mode)
    | .writeCmd _ content mode => writeOp fs rp content mode maxSize
    | .createCmd _ content => createOp fs rp content maxSize
    | .replaceCmd _ old new allOccurrences =>
        replaceOp fs rp (strBytes old) (strBytes new) allOccurrences
    | .undoCmd _ => undoOp fs rp
    | .grepCmd pattern _ caseSensitive recursive =>
        (fs, grepOp fs rp pattern caseSensitive recursive)
    | .existsCmd _ => (fs, existsOp fs rp)

theorem lookupA_setA_self {κ β : Type} [DecidableEq κ] (k : κ) (v : β)
    (l : List (κ × β)) :
    lookupA k (setA k v l) = some v := by
  simp [setA, lookupA]

theorem lookupA_removeA_self {κ β : Type} [DecidableEq κ] (k : κ)
    (l : List (κ × β)) :
    lookupA k (removeA k l) = none := by
  induction l with
  | nil => rfl
  | cons e t ih =>
    by_cases h : e.1 = k
    · simpa [removeA, List.filter, h] using ih
    · simpa [removeA, List.filter, h, lookupA] using ih

theorem bytesStr_strBytes (s : String) : bytesStr (strBytes s) = s := by
  have h : (strBytes s).map Char.ofNat = s.data := by
    simp only [strBytes, List.map_map]
    have h2 : s.data.map (Char.ofNat ∘ Char.toNat) = s.data.map id :=
      List.map_congr_left fun c _ => Char.ofNat_toNat c
    simpa using h2
  rw [bytesStr, h]

/-- C1: every file operation on a caller path that resolves outside the
workspace root returns a Result whose error is set and contains "outside"
and "invalid", and the filesystem state (files and undo history) is left
untouched — the rejection happens before any filesystem access. -/
theorem C1_outside_paths_rejected (root : FPath) (maxSize : Nat) (fs : FSState)
    (cmd : FileCmd) (h : escapesRoot root cmd.path = true) :
    (runFileCmd root maxSize fs cmd).2.error =
      some "invalid path: resolves outside the workspace root" ∧
    containsS "invalid" "invalid path: resolves outside the workspace root" = true ∧
    containsS "outside" "invalid path: resolves outside the workspace root" = true ∧
    (runFileCmd root maxSize fs cmd).1 = fs := by
  have h' : startsL root (resolvePath root cmd.path) = false := by
    simpa [escapesRoot] using h
  refine ⟨?_, by decide, by decide, ?_⟩ <;>
    simp [runFileCmd, validatePath, h', ToolResult.mkError]

/-- C1 witness: a `..`-traversal read is rejected and the state is
untouched. -/
theorem C1_outside_paths_rejected_witness :
    escapesRoot ["workspace"]
      (FileCmd.readCmd ⟨false, ["..", "..", "etc", "passwd"]⟩ .textMode).path = true ∧
    ((runFileCmd ["workspace"] 100 ⟨[], []⟩
        (FileCmd.readCmd ⟨false, ["..", "..", "etc", "passwd"]⟩ .textMode)).2.error =
      some "invalid path: resolves outside the workspace root" ∧
    containsS "invalid" "invalid path: resolves outside the workspace root" = true ∧
    containsS "outside" "invalid path: resolves outside the workspace root" = true ∧
    (runFileCmd ["workspace"] 100 ⟨[], []⟩
        (FileCmd.readCmd ⟨false, ["..", "..", "etc", "passwd"]⟩ .textMode)).1 =
      (⟨[], []⟩ : FSState)) :=
  ⟨by decide, C1_outside_paths_rejected ["workspace"] 100 ⟨[], []⟩ _ (by decide)⟩

/-- C6: `create` on an existing path always fails with an error containing
"already exists" and leaves the existing content unchanged; `create` on a
fresh path succeeds and stores exactly the given content. -/
theorem C6_create_semantics (root : FPath) (maxSize : Nat) (fs : FSState)
    (p : CallerPath) (rp : FPath) (content : String)
    (hv : validatePath root p = Except.ok rp)
    (hsize : content.data.length ≤ maxSize) :
    (∀ prior, lookupA rp fs.files = some prior →
      (runFileCmd root maxSize fs (.createCmd p content)).2.error =
        some "file already exists" ∧
      containsS "already exists" "file already exists" = true ∧
      (runFileCmd root maxSize fs (.createCmd p content)).1 = fs ∧
      lookupA rp (runFileCmd root maxSize fs (.createCmd p content)).1.files =
        some prior) ∧
    (lookupA rp fs.files = none →
      (runFileCmd root maxSize fs (.createCmd p content)).2.error = none ∧
      lookupA rp (runFileCmd root maxSize fs (.createCmd p content)).1.files =
        some (strBytes content) ∧
      bytesStr (strBytes content) = content) := by
  constructor
  · intro prior hprior
    refine ⟨?_, by decide, ?_, ?_⟩ <;>
      simp [runFileCmd, FileCmd.path, hv, createOp, hprior, ToolResult.mkError]
  · intro hnone
    have hlen : content.length = content.data.length := rfl
    have hs : ¬ maxSize < content.length := by omega
    refine ⟨?_, ?_, bytesStr_strBytes content⟩ <;>
      simp [runFileCmd, FileCmd.path, hv, createOp, hnone, hs, ToolResult.mkOutput,
        lookupA_setA_self]

/-- C6 witness: concrete create on an occupied path and on a fresh path. -/
theorem C6_create_semantics_witness :
    validatePath [] ⟨false, ["f"]⟩ = Except.ok ["f"] ∧
    "x".data.length ≤ 10 ∧
    ((∀ prior, lookupA ["f"] (FSState.mk [(["g"], [1])] []).files = some prior →
      (runFileCmd [] 10 ⟨[(["g"], [1])], []⟩ (.createCmd ⟨false, ["f"]⟩ "x")).2.error =
        some "file already exists" ∧
      containsS "already exists" "file already exists" = true ∧
      (runFileCmd [] 10 ⟨[(["g"], [1])], []⟩ (.createCmd ⟨false, ["f"]⟩ "x")).1 =
        ⟨[(["g"], [1])], []⟩ ∧
      lookupA ["f"]
        (runFileCmd [] 10 ⟨[(["g"], [1])], []⟩
          (.createCmd ⟨false, ["f"]⟩ "x")).1.files = some prior) ∧
    (lookupA ["f"] (FSState.mk [(["g"], [1])] []).files = none →
      (runFileCmd [] 10 ⟨[(["g"], [1])], []⟩ (.createCmd ⟨false, ["f"]⟩ "x")).2.error =
        none ∧
      lookupA ["f"]
        (runFileCmd [] 10 ⟨[(["g"], [1])], []⟩
          (.createCmd ⟨false, ["f"]⟩ "x")).1.files = some (strBytes "x") ∧
      bytesStr (strBytes "x") = "x")) :=
  ⟨by rfl, by decide,
    C6_create_semantics [] 10 ⟨[(["g"], [1])], []⟩ ⟨false, ["f"]⟩ ["f"] "x"
      (by rfl) (by decide)⟩

/-- C7: `grep` on a regular file with zero matching lines returns a success
Result whose output contains "no matches" and whose error is unset; `grep`
on a directory with `recursive = false` fails with an error containing
"recursive". -/
theorem C7_grep_semantics (root : FPath) (maxSize : Nat) (fs : FSState)
    (pattern : String) (p1 p2 : CallerPath) (rp1 rp2 : FPath)
    (content : List Nat)
    (hv1 : validatePath root p1 = Except.ok rp1)
    (hfile : lookupA rp1 fs.files = some content)
    (hnomatch : ∀ l ∈ splitNLB content, containsL (strBytes pattern) l = false)
    (hv2 : validatePath root p2 = Except.ok rp2)
    (hnotfile : lookupA rp2 fs.files = none)
    (hdir : isDirF fs rp2 = true) :
    ((runFileCmd root maxSize fs (.grepCmd pattern p1 true false)).2.output =
        some "no matches found" ∧
      containsS "no matches" "no matches found" = true ∧
      (runFileCmd root maxSize fs (.grepCmd pattern p1 true false)).2.error = none) ∧
    ((runFileCmd root maxSize fs (.grepCmd pattern p2 true false)).2.error =
        some "path is a directory: pass recursive=true to search directories" ∧
      containsS "recursive"
        "path is a directory: pass recursive=true to search directories" = true) := by
  constructor
  · have hfilter : (splitNLB content).filter
        (fun l => containsL (strBytes pattern) l) = [] :=
      List.filter_eq_nil_iff.mpr (fun l hl => by simp [hnomatch l hl])
    refine ⟨?_, by decide, ?_⟩ <;>
      simp [runFileCmd, FileCmd.path, hv1, grepOp, hfile, hfilter,
        ToolResult.mkOutput]
  · refine ⟨?_, by decide⟩
    simp [runFileCmd, FileCmd.path, hv2, grepOp, hnotfile, hdir,
      ToolResult.mkError]

/-- C7 witness: a one-file workspace; grep for an absent pattern in the
file, and a non-recursive grep of the directory above it. -/
theorem C7_grep_semantics_witness :
    validatePath [] ⟨false, ["d", "f"]⟩ = Except.ok ["d", "f"] ∧
    lookupA ["d", "f"] (FSState.mk [(["d", "f"], strBytes "hello")] []).files =
      some (strBytes "hello") ∧
    (∀ l ∈ splitNLB (strBytes "hello"), containsL (strBytes "zzz") l = false) ∧
    validatePath [] ⟨false, ["d"]⟩ = Except.ok ["d"] ∧
    lookupA ["d"] (FSState.mk [(["d", "f"], strBytes "hello")] []).files = none ∧
    isDirF ⟨[(["d", "f"], strBytes "hello")], []⟩ ["d"] = true ∧
    (((runFileCmd [] 10 ⟨[(["d", "f"], strBytes "hello")], []⟩
          (.grepCmd "zzz" ⟨false, ["d", "f"]⟩ true false)).2.output =
        some "no matches found" ∧
      containsS "no matches" "no matches found" = true ∧
      (runFileCmd [] 10 ⟨[(["d", "f"], strBytes "hello")], []⟩
          (.grepCmd "zzz" ⟨false, ["d", "f"]⟩ true false)).2.error = none) ∧
    ((runFileCmd [] 10 ⟨[(["d", "f"], strBytes "hello")], []⟩
          (.grepCmd "zzz" ⟨false, ["d"]⟩ true false)).2.error =
        some "path is a directory: pass recursive=true to search directories" ∧
      containsS "recursive"
        "path is a directory: pass recursive=true to search directories" = true)) :=
  ⟨by rfl, by decide, by decide, by rfl, by decide, by decide,
    C7_grep_semantics [] 10 ⟨[(["d", "f"], strBytes "hello")], []⟩ "zzz"
      ⟨false, ["d", "f"]⟩ ⟨false, ["d"]⟩ ["d", "f"] ["d"] (strBytes "hello")
      (by rfl) (by decide) (by decide) (by rfl) (by decide) (by decide)⟩

/-- C3: on a file containing `old`, `replace(path, old, new,
all_occurrences=true)` succeeds and rewrites the content by the
all-occurrences substitution; one `undo(path)` immediately afterwards
succeeds and restores the exact pre-replace byte content; a second `undo`
with no intervening edit fails with an error containing "no undo history"
(the snapshot is consumed by the first undo). -/
theorem C3_replace_undo_undo (root : FPath) (maxSize : Nat) (fs : FSState)
    (p : CallerPath) (rp : FPath) (old new : String) (content : List Nat)
    (hv : validatePath root p = Except.ok rp)
    (hc : lookupA rp fs.files = some content)
    (hocc : 1 ≤ countOccL (strBytes old) content) :
    (runFileCmd root maxSize fs (.replaceCmd p old new true)).2.error = none ∧
    lookupA rp (runFileCmd root maxSize fs (.replaceCmd p old new true)).1.files =
      some (replaceAllL (strBytes old) (strBytes new) content) ∧
    (runFileCmd root maxSize
        (runFileCmd root maxSize fs (.replaceCmd p old new true)).1
        (.undoCmd p)).2.error = none ∧
    lookupA rp
      (runFileCmd root maxSize
          (runFileCmd root maxSize fs (.replaceCmd p old new true)).1
          (.undoCmd p)).1.files = some content ∧
    (runFileCmd root maxSize
        (runFileCmd root maxSize
            (runFileCmd root maxSize fs (.replaceCmd p old new true)).1
            (.undoCmd p)).1
        (.undoCmd p)).2.error = some "no undo history for this file" ∧
    containsS "no undo history" "no undo history for this file" = true := by
  have hn : ¬ countOccL (strBytes old) content = 0 := by omega
  have hstep1 : runFileCmd root maxSize fs (.replaceCmd p old new true) =
      ({ files := setA rp (replaceAllL (strBytes old) (strBytes new) content)
            fs.files,
         undoHistory := setA rp content fs.undoHistory },
        ToolResult.mkOutput "replacement successful") := by
    simp [runFileCmd, FileCmd.path, hv, replaceOp, hc, hn]
  have hstep2 : runFileCmd root maxSize
      (runFileCmd root maxSize fs (.replaceCmd p old new true)).1 (.undoCmd p) =
      ({ files := setA rp content
            (setA rp (replaceAllL (strBytes old) (strBytes new) content) fs.files),
         undoHistory := removeA rp (setA rp content fs.undoHistory) },
        ToolResult.mkOutput "undo successful") := by
    rw [hstep1]
    simp [runFileCmd, FileCmd.path, hv, undoOp, lookupA_setA_self]
  have hstep3 : (runFileCmd root maxSize
      (runFileCmd root maxSize
          (runFileCmd root maxSize fs (.replaceCmd p old new true)).1
          (.undoCmd p)).1
      (.undoCmd p)).2 = ToolResult.mkError "no undo history for this file" := by
    rw [hstep2]
    have hrm : lookupA rp (removeA rp (setA rp content fs.undoHistory)) = none :=
      lookupA_removeA_self rp _
    simp [runFileCmd, FileCmd.path, hv, undoOp, hrm]
  refine ⟨?_, ?_, ?_, ?_, ?_, by decide⟩
  · rw [hstep1]; rfl
  · rw [hstep1]; exact lookupA_setA_self rp _ _
  · rw [hstep2]; rfl
  · rw [hstep2]; exact lookupA_setA_self rp _ _
  · rw [hstep3]; rfl

/-- C3 witness: replace both occurrences of `"a"` in `"aba"`, undo, undo
again. -/
theorem C3_replace_undo_undo_witness :
    validatePath [] ⟨false, ["f"]⟩ = Except.ok ["f"] ∧
    lookupA ["f"] (FSState.mk [(["f"], strBytes "aba")] []).files =
      some (strBytes "aba") ∧
    1 ≤ countOccL (strBytes "a") (strBytes "aba") ∧
    ((runFileCmd [] 99 ⟨[(["f"], strBytes "aba")], []⟩
        (.replaceCmd ⟨false, ["f"]⟩ "a" "z" true)).2.error = none ∧
    lookupA ["f"] (runFileCmd [] 99 ⟨[(["f"], strBytes "aba")], []⟩
        (.replaceCmd ⟨false, ["f"]⟩ "a" "z" true)).1.files =
      some (replaceAllL (strBytes "a") (strBytes "z") (strBytes "aba")) ∧
    (runFileCmd [] 99
        (runFileCmd [] 99 ⟨[(["f"], strBytes "aba")], []⟩
          (.replaceCmd ⟨false, ["f"]⟩ "a" "z" true)).1
        (.undoCmd ⟨false, ["f"]⟩)).2.error = none ∧
    lookupA ["f"]
      (runFileCmd [] 99
          (runFileCmd [] 99 ⟨[(["f"], strBytes "aba")], []⟩
            (.replaceCmd ⟨false, ["f"]⟩ "a" "z" true)).1
          (.undoCmd ⟨false, ["f"]⟩)).1.files = some (strBytes "aba") ∧
    (runFileCmd [] 99
        (runFileCmd [] 99
            (runFileCmd [] 99 ⟨[(["f"], strBytes "aba")], []⟩
              (.replaceCmd ⟨false, ["f"]⟩ "a" "z" true)).1
            (.undoCmd ⟨false, ["f"]⟩)).1
        (.undoCmd ⟨false, ["f"]⟩)).2.error = some "no undo history for this file" ∧
    containsS "no undo history" "no undo history for this file" = true) :=
  ⟨by rfl, by decide, by decide,
    C3_replace_undo_undo [] 99 ⟨[(["f"], strBytes "aba")], []⟩ ⟨false, ["f"]⟩
      ["f"] "a" "z" (strBytes "aba") (by rfl) (by decide) (by decide)⟩

/-- C4: for an in-sandbox path and content within the size limit, `write`
followed by `read` returns exactly the written content in text mode; in
binary mode, writing the base64 encoding of a byte list stores those bytes
byte-for-byte, reading returns exactly the written encoded content, and the
binary read marks the Result's `system` field as `"binary"`. -/
theorem C4_write_read_roundtrip (root : FPath) (maxSize : Nat) (fs : FSState)
    (p : CallerPath) (rp : FPath) (content : String) (bytes : List Nat)
    (hv : validatePath root p = Except.ok rp)
    (hsize : content.data.length ≤ maxSize)
    (hbytes : ∀ b ∈ bytes, b < 256)
    (hbsize : (b64encode bytes).length ≤ maxSize) :
    ((runFileCmd root maxSize fs (.writeCmd p content .textMode)).2.error = none ∧
      (runFileCmd root maxSize
          (runFileCmd root maxSize fs (.writeCmd p content .textMode)).1
          (.readCmd p .textMode)).2.output = some content ∧
      (runFileCmd root maxSize
          (runFileCmd root maxSize fs (.writeCmd p content .textMode)).1
          (.readCmd p .textMode)).2.error = none) ∧
    ((runFileCmd root maxSize fs
          (.writeCmd p (String.mk (b64encode bytes)) .binaryMode)).2.error = none ∧
      lookupA rp (runFileCmd root maxSize fs
          (.writeCmd p (String.mk (b64encode bytes)) .binaryMode)).1.files =
        some bytes ∧
      (runFileCmd root maxSize
          (runFileCmd root maxSize fs
            (.writeCmd p (String.mk (b64encode bytes)) .binaryMode)).1
          (.readCmd p .binaryMode)).2.output =
        some (String.mk (b64encode bytes)) ∧
      (runFileCmd root maxSize
          (runFileCmd root maxSize fs
            (.writeCmd p (String.mk (b64encode bytes)) .binaryMode)).1
          (.readCmd p .binaryMode)).2.system = some "binary" ∧
      (runFileCmd root maxSize
          (runFileCmd root maxSize fs
            (.writeCmd p (String.mk (b64encode bytes)) .binaryMode)).1
          (.readCmd p .binaryMode)).2.error = none) := by
  have hlen : content.length = content.data.length := rfl
  have hs : ¬ maxSize < content.length := by omega
  have hwt : runFileCmd root maxSize fs (.writeCmd p content .textMode) =
      ({ fs with files := setA rp (strBytes content) fs.files },
        ToolResult.mkOutput "file written") := by
    simp [runFileCmd, FileCmd.path, hv, writeOp, hs]
  have hrt : (runFileCmd root maxSize
      (runFileCmd root maxSize fs (.writeCmd p content .textMode)).1
      (.readCmd p .textMode)).2 = ToolResult.mkOutput content := by
    rw [hwt]
    simp [runFileCmd, FileCmd.path, hv, readOp, lookupA_setA_self,
      bytesStr_strBytes]
  have hbs : ¬ maxSize < (b64encode bytes).length := by omega
  have hdec : b64decode (String.mk (b64encode bytes)).data = some bytes := by
    show b64decode (b64encode bytes) = some bytes
    exact b64decode_b64encode bytes hbytes
  have hwb : runFileCmd root maxSize fs
      (.writeCmd p (String.mk (b64encode bytes)) .binaryMode) =
      ({ fs with files := setA rp bytes fs.files },
        ToolResult.mkOutput "file written") := by
    simp [runFileCmd, FileCmd.path, hv, writeOp, hbs, hdec]
  have hrb : (runFileCmd root maxSize
      (runFileCmd root maxSize fs
        (.writeCmd p (String.mk (b64encode bytes)) .binaryMode)).1
      (.readCmd p .binaryMode)).2 =
      ⟨some (String.mk (b64encode bytes)), none, some "binary"⟩ := by
    rw [hwb]
    simp [runFileCmd, FileCmd.path, hv, readOp, lookupA_setA_self]
  refine ⟨⟨?_, ?_, ?_⟩, ⟨?_, ?_, ?_, ?_, ?_⟩⟩
  · rw [hwt]; rfl
  · rw [hrt]; rfl
  · rw [hrt]; rfl
  · rw [hwb]; rfl
  · rw [hwb]; exact lookupA_setA_self rp _ _
  · rw [hrb]
  · rw [hrb]
  · rw [hrb]

/-- C4 witness: text round trip of `"hi"` and binary round trip of the
bytes `[0, 1, 2, 3]`. -/
theorem C4_write_read_roundtrip_witness :
    validatePath [] ⟨false, ["f"]⟩ = Except.ok ["f"] ∧
    "hi".data.length ≤ 99 ∧
    (∀ b ∈ [0, 1, 2, 3], b < 256) ∧
    (b64encode [0, 1, 2, 3]).length ≤ 99 ∧
    (((runFileCmd [] 99 ⟨[], []⟩ (.writeCmd ⟨false, ["f"]⟩ "hi" .textMode)).2.error =
        none ∧
      (runFileCmd [] 99
          (runFileCmd [] 99 ⟨[], []⟩ (.writeCmd ⟨false, ["f"]⟩ "hi" .textMode)).1
          (.readCmd ⟨false, ["f"]⟩ .textMode)).2.output = some "hi" ∧
      (runFileCmd [] 99
          (runFileCmd [] 99 ⟨[], []⟩ (.writeCmd ⟨false, ["f"]⟩ "hi" .textMode)).1
          (.readCmd ⟨false, ["f"]⟩ .textMode)).2.error = none) ∧
    ((runFileCmd [] 99 ⟨[], []⟩
          (.writeCmd ⟨false, ["f"]⟩ (String.mk (b64encode [0, 1, 2, 3]))
            .binaryMode)).2.error = none ∧
      lookupA ["f"] (runFileCmd [] 99 ⟨[], []⟩
          (.writeCmd ⟨false, ["f"]⟩ (String.mk (b64encode [0, 1, 2, 3]))
            .binaryMode)).1.files = some [0, 1, 2, 3] ∧
      (runFileCmd [] 99
          (runFileCmd [] 99 ⟨[], []⟩
            (.writeCmd ⟨false, ["f"]⟩ (String.mk (b64encode [0, 1, 2, 3]))
              .binaryMode)).1
          (.readCmd ⟨false, ["f"]⟩ .binaryMode)).2.output =
        some (String.mk (b64encode [0, 1, 2, 3])) ∧
      (runFileCmd [] 99
          (runFileCmd [] 99 ⟨[], []⟩
            (.writeCmd ⟨false, ["f"]⟩ (String.mk (b64encode [0, 1, 2, 3]))
              .binaryMode)).1
          (.readCmd ⟨false, ["f"]⟩ .binaryMode)).2.system = some "binary" ∧
      (runFileCmd [] 99
          (runFileCmd [] 99 ⟨[], []⟩
            (.writeCmd ⟨false, ["f"]⟩ (String.mk (b64encode [0, 1, 2, 3]))
              .binaryMode)).1
          (.readCmd ⟨false, ["f"]⟩ .binaryMode)).2.error = none)) :=
  ⟨by rfl, by decide, by decide, by decide,
    C4_write_read_roundtrip [] 99 ⟨[], []⟩ ⟨false, ["f"]⟩ ["f"] "hi" [0, 1, 2, 3]
      (by rfl) (by decide) (by decide) (by decide)⟩

/-!
## Command sessions and the session orchestrator

Modelled from the spec: `bash_server.py` (`_BashSession`, `BashTool`,
`validate_command_length`) is absent from `src/`; the model follows spec
sections 3, 4.1, 4.2 and 7.  A command is abstracted by its text, its
runtime and its produced output; wall-clock time is passed explicitly.
-/

/-- Command session state (spec section 3, "Command Session"). -/
structure BashSession where
  session_id : Nat
  started : Bool
  is_running_command : Bool
  last_command : String
  created_at : Int
  last_activity : Int
deriving Repr, DecidableEq

/-- Abstract command: text, runtime, and the output it would produce. -/
structure CmdSpec where
  text : String
  runtime : Int
  out : String
deriving Repr, DecidableEq

/-- Modelled from the spec: command-length validation — commands above the
configured maximum character length fail fast with a "too long" error
(spec section 4.2; `validate_command_length` in the absent
`bash_server.py`). -/
def validate_command_length (maxLen : Nat) (cmd : String) : Except String Unit :=
  if cmd.length > maxLen then
    Except.error "command too long: exceeds the maximum command length"
  else Except.ok ()

/-- Freshly started session (spec section 3, lifecycle "created on first
use"). -/
def newSession (sid : Nat) (now : Int) : BashSession :=
  ⟨sid, true, false, "", now, now⟩

/-- Modelled from the spec: run a command on a session.  If the runtime
exceeds the timeout the wait is abandoned and the command is marked as
timed out via a `system` message, not an `error` (spec section 4.1, steps
5 and 7); otherwise the captured output is returned.  Either way the
last-activity timestamp and last-command text are updated and the
in-flight flag is cleared. -/
def BashSession.runCmd (s : BashSession) (now : Int) (cmd : CmdSpec)
    (timeout : Int) : BashSession × ToolResult :=
  if cmd.runtime > timeout then
    ({ s with
        last_command := cmd.text
        last_activity := now
        is_running_command := false },
      ⟨none, none,
        some "command timed out: the command may still be running in the session"⟩)
  else
    ({ s with
        last_command := cmd.text
        last_activity := now
        is_running_command := false },
      ToolResult.mkOutput cmd.out)

/-- Orchestrator state: the table of sessions keyed by session id (spec
section 3, "Session Orchestrator table"). -/
structure BashTool where
  sessions : List (Nat × BashSession)
deriving Repr, DecidableEq

/-- Call arguments for the command path of the orchestrator (spec section
4.2; the structural flags not exercised by the frozen claims are
omitted). -/
structure CallArgs where
  command : Option CmdSpec
  session : Nat
  timeout : Int
deriving Repr, DecidableEq

/-- Modelled from the spec: the orchestrator's entry point for the command
request kind — validate the command length before dispatch (rejections
never reach a session), look up or lazily create the session, run the
command, and store the updated session (spec section 4.2). -/
def toolCall (maxLen : Nat) (now : Int) (st : BashTool) (args : CallArgs) :
    BashTool × ToolResult :=
  match args.command with
  | none => (st, ToolResult.mkError "no command provided")
  | some cmd =>
    match validate_command_length maxLen cmd.text with
    | .error e => (st, ToolResult.mkError e)
    | .ok _ =>
      let sess := match lookupA args.session st.sessions with
        | some s => s
        | none => newSession args.session now
      let run := sess.runCmd now cmd args.timeout
      (⟨setA args.session run.1 st.sessions⟩, run.2)

/-- C5: a command whose runtime exceeds the caller-specified timeout
returns a Result whose `system` field contains "timed out", the `error`
field stays unset, and the session survives: a subsequent in-budget call
on the orchestrator returns its output normally. -/
theorem C5_timeout_is_system_message (maxLen : Nat) (now now2 : Int)
    (st : BashTool) (cmd cmd2 : CmdSpec) (sid sid2 : Nat) (t t2 : Int)
    (hlen : cmd.text.length ≤ maxLen) (hrt : cmd.runtime > t)
    (hlen2 : cmd2.text.length ≤ maxLen) (hrt2 : cmd2.runtime ≤ t2) :
    (toolCall maxLen now st ⟨some cmd, sid, t⟩).2.system =
      some "command timed out: the command may still be running in the session" ∧
    containsS "timed out"
      "command timed out: the command may still be running in the session" = true ∧
    (toolCall maxLen now st ⟨some cmd, sid, t⟩).2.error = none ∧
    (toolCall maxLen now2 (toolCall maxLen now st ⟨some cmd, sid, t⟩).1
        ⟨some cmd2, sid2, t2⟩).2.output = some cmd2.out ∧
    (toolCall maxLen now2 (toolCall maxLen now st ⟨some cmd, sid, t⟩).1
        ⟨some cmd2, sid2, t2⟩).2.error = none := by
  have hok : ¬ cmd.text.length > maxLen := by omega
  have hok2 : ¬ cmd2.text.length > maxLen := by omega
  have hrt2' : ¬ cmd2.runtime > t2 := by omega
  refine ⟨?_, by decide, ?_, ?_, ?_⟩ <;>
    cases hl : lookupA sid st.sessions <;>
      cases hl2 : lookupA sid2
        (toolCall maxLen now st ⟨some cmd, sid, t⟩).1.sessions <;>
        simp [toolCall, validate_command_length, hok, hok2, BashSession.runCmd,
          hrt, hrt2', hl, hl2, ToolResult.mkOutput, ToolResult.mkError]

/-- C5 witness: a 100-second command under a 1-second timeout, then a fast
follow-up command on the same orchestrator. -/
theorem C5_timeout_is_system_message_witness :
    ("sleep 100" : String).length ≤ 50 ∧ (100 : Int) > 1 ∧
    ("echo ok" : String).length ≤ 50 ∧ (1 : Int) ≤ 5 ∧
    ((toolCall 50 0 ⟨[]⟩ ⟨some ⟨"sleep 100", 100, ""⟩, 1, 1⟩).2.system =
      some "command timed out: the command may still be running in the session" ∧
    containsS "timed out"
      "command timed out: the command may still be running in the session" = true ∧
    (toolCall 50 0 ⟨[]⟩ ⟨some ⟨"sleep 100", 100, ""⟩, 1, 1⟩).2.error = none ∧
    (toolCall 50 7 (toolCall 50 0 ⟨[]⟩ ⟨some ⟨"sleep 100", 100, ""⟩, 1, 1⟩).1
        ⟨some ⟨"echo ok", 1, "ok"⟩, 1, 5⟩).2.output = some "ok" ∧
    (toolCall 50 7 (toolCall 50 0 ⟨[]⟩ ⟨some ⟨"sleep 100", 100, ""⟩, 1, 1⟩).1
        ⟨some ⟨"echo ok", 1, "ok"⟩, 1, 5⟩).2.error = none) :=
  ⟨by decide, by decide, by decide, by decide,
    C5_timeout_is_system_message 50 0 7 ⟨[]⟩ ⟨"sleep 100", 100, ""⟩
      ⟨"echo ok", 1, "ok"⟩ 1 1 1 5 (by decide) (by decide) (by decide) (by decide)⟩

/-- C8: a command longer than the configured maximum fails fast with a
"too long" error before reaching any session — the orchestrator state is
unchanged — and commands at or below the limit pass validation without
error. -/
theorem C8_command_length_validation (maxLen : Nat) (now : Int) (st : BashTool)
    (cmd : CmdSpec) (sid : Nat) (t : Int)
    (hlong : cmd.text.length > maxLen) :
    validate_command_length maxLen cmd.text =
      Except.error "command too long: exceeds the maximum command length" ∧
    containsS "too long" "command too long: exceeds the maximum command length" =
      true ∧
    (toolCall maxLen now st ⟨some cmd, sid, t⟩).2.error =
      some "command too long: exceeds the maximum command length" ∧
    (toolCall maxLen now st ⟨some cmd, sid, t⟩).1 = st ∧
    (∀ c2 : String, c2.length ≤ maxLen →
      validate_command_length maxLen c2 = Except.ok ()) := by
  have h : cmd.text.length > maxLen := hlong
  refine ⟨?_, by decide, ?_, ?_, ?_⟩
  · simp [validate_command_length, h]
  · simp [toolCall, validate_command_length, h, ToolResult.mkError]
  · simp [toolCall, validate_command_length, h]
  · intro c2 hc2
    have h2 : ¬ c2.length > maxLen := by omega
    simp [validate_command_length, h2]

/-- C8 witness: a 6-character command against a 5-character limit,
and a short command passing validation. -/
theorem C8_command_length_validation_witness :
    ("xxxxxx" : String).length > 5 ∧
    (validate_command_length 5 "xxxxxx" =
      Except.error "command too long: exceeds the maximum command length" ∧
    containsS "too long" "command too long: exceeds the maximum command length" =
      true ∧
    (toolCall 5 0 ⟨[]⟩ ⟨some ⟨"xxxxxx", 1, ""⟩, 1, 9⟩).2.error =
      some "command too long: exceeds the maximum command length" ∧
    (toolCall 5 0 ⟨[]⟩ ⟨some ⟨"xxxxxx", 1, ""⟩, 1, 9⟩).1 = ⟨[]⟩ ∧
    (∀ c2 : String, c2.length ≤ 5 →
      validate_command_length 5 c2 = Except.ok ())) :=
  ⟨by decide, C8_command_length_validation 5 0 ⟨[]⟩ ⟨"xxxxxx", 1, ""⟩ 1 9 (by decide)⟩

/-!
## Template conversion (`convert_go_to_pongo2` in
`src/scripts/fix_pongo2_syntax.py`)

Translated from the source: the function is a pipeline of 26 `re.sub`
calls applied in order.  Each concrete regular expression is embedded as a
scanner that attempts a match at every position from left to right
(leftmost match, replacements not rescanned — exactly `re.sub`).  For
these patterns greedy matching coincides with maximal munch because each
repeated character class is disjoint from the literal that follows it.
Character classes carry their ASCII meaning.
-/

/-- ASCII whitespace (Python `\s` restricted to ASCII). -/
def isSpaceC (c : Char) : Bool :=
  c = ' ' || c = '\t' || c = '\n' || c = '\r' || c = '\x0b' || c = '\x0c'

/-- ASCII word character (Python `\w` restricted to ASCII). -/
def isWordC (c : Char) : Bool :=
  ('a' ≤ c && c ≤ 'z') || ('A' ≤ c && c ≤ 'Z') || ('0' ≤ c && c ≤ '9') || c = '_'

/-- ASCII digit (Python `\d`). -/
def isDigitC (c : Char) : Bool := '0' ≤ c && c ≤ '9'

/-- Match a literal character sequence, returning the rest. -/
def litP : List Char → List Char → Option (List Char)
  | [], s => some s
  | _ :: _, [] => none
  | p :: ps, c :: cs => if p = c then litP ps cs else none

/-- Consume `\s*` (maximal). -/
def dropSpacesP (s : List Char) : List Char := s.dropWhile isSpaceC

/-- Consume `\s+` (at least one, maximal). -/
def spaces1P : List Char → Option (List Char)
  | [] => none
  | c :: cs => if isSpaceC c then some (cs.dropWhile isSpaceC) else none

/-- Capture `(\w+)` (maximal, non-empty). -/
def word1P (s : List Char) : Option (List Char × List Char) :=
  let w := s.takeWhile isWordC
  if w.isEmpty then none else some (w, s.dropWhile isWordC)

/-- Capture `([^"]+)` (maximal, non-empty). -/
def notQuote1P (s : List Char) : Option (List Char × List Char) :=
  let w := s.takeWhile (fun c => !(c = '"'))
  if w.isEmpty then none else some (w, s.dropWhile (fun c => !(c = '"')))

/-- Capture `(\d+)` (maximal, non-empty). -/
def digits1P (s : List Char) : Option (List Char × List Char) :=
  let w := s.takeWhile isDigitC
  if w.isEmpty then none else some (w, s.dropWhile isDigitC)

/-- A substitution rule: at the current position, either fail or return the
replacement together with the rest of the input after the matched text. -/
abbrev SubRule := List Char → Option (List Char × List Char)

/-- Wrapper for the patterns that begin with the literal `\x7b\x7b`. -/
def brace2 (k : SubRule) : SubRule := fun s =>
  match s with
  | c1 :: c2 :: rest => if c1 = '\x7b' ∧ c2 = '\x7b' then k rest else none
  | _ => none

/-- Apply a rule at every position, left to right, never rescanning
replacements (the semantics of `re.sub` for these patterns). -/
def applyRule (r : SubRule) : Nat → List Char → List Char
  | 0, s => s
  | _ + 1, [] => []
  | f + 1, c :: cs =>
    match r (c :: cs) with
    | some (rep, rest) => rep ++ applyRule r f rest
    | none => c :: applyRule r f cs

/-- One `re.sub` pass. -/
def subAll (r : SubRule) (s : List Char) : List Char := applyRule r s.length s

/-- Line 10: remove a Go block definition opener (regex
`\x7b\x7bdefine\s+"[^"]+"\x7d\x7d\s*`). -/
def R1_define : SubRule := brace2 fun s =>
  (litP "define".data s).bind fun s1 =>
  (spaces1P s1).bind fun s2 =>
  (litP "\"".data s2).bind fun s3 =>
  (notQuote1P s3).bind fun ws =>
  (litP "\"\x7d\x7d".data ws.2).map fun s4 =>
  ([], dropSpacesP s4)

/-- Line 11: remove a trailing Go end token (regex
`\s*\x7b\x7bend\x7d\x7d\s*$`; without `re.MULTILINE` the anchor admits only
the end of the input, up to one final newline, which the greedy trailing
`\s*` subsumes). -/
def R2_endTrail : SubRule := fun s =>
  match litP "\x7b\x7bend\x7d\x7d".data (dropSpacesP s) with
  | none => none
  | some r => if (dropSpacesP r).isEmpty then some ([], []) else none

/-- Line 14: one-component variable (regex `\x7b\x7b\s*\.(\w+)\s*\x7d\x7d`
becoming `\x7b\x7b \1 \x7d\x7d`). -/
def R3_var1 : SubRule := brace2 fun s =>
  (litP ".".data (dropSpacesP s)).bind fun s1 =>
  (word1P s1).bind fun ws =>
  (litP "\x7d\x7d".data (dropSpacesP ws.2)).map fun s2 =>
  ("\x7b\x7b ".data ++ ws.1 ++ " \x7d\x7d".data, s2)

/-- Line 17: two-component variable. -/
def R4_var2 : SubRule := brace2 fun s =>
  (litP ".".data (dropSpacesP s)).bind fun s1 =>
  (word1P s1).bind fun w1 =>
  (litP ".".data w1.2).bind fun s2 =>
  (word1P s2).bind fun w2 =>
  (litP "\x7d\x7d".data (dropSpacesP w2.2)).map fun s3 =>
  ("\x7b\x7b ".data ++ w1.1 ++ ".".data ++ w2.1 ++ " \x7d\x7d".data, s3)

/-- Line 20: three-component variable. -/
def R5_var3 : SubRule := brace2 fun s =>
  (litP ".".data (dropSpacesP s)).bind fun s1 =>
  (word1P s1).bind fun w1 =>
  (litP ".".data w1.2).bind fun s2 =>
  (word1P s2).bind fun w2 =>
  (litP ".".data w2.2).bind fun s3 =>
  (word1P s3).bind fun w3 =>
  (litP "\x7d\x7d".data (dropSpacesP w3.2)).map fun s4 =>
  ("\x7b\x7b ".data ++ w1.1 ++ ".".data ++ w2.1 ++ ".".data ++ w3.1 ++
    " \x7d\x7d".data, s4)

/-- Line 23: one-component if. -/
def R6_if1 : SubRule := brace2 fun s =>
  (litP "if".data (dropSpacesP s)).bind fun s1 =>
  (spaces1P s1).bind fun s2 =>
  (litP ".".data s2).bind fun s3 =>
  (word1P s3).bind fun ws =>
  (litP "\x7d\x7d".data (dropSpacesP ws.2)).map fun s4 =>
  ("\x7b% if ".data ++ ws.1 ++ " %\x7d".data, s4)

/-- Line 26: two-component if. -/
def R7_if2 : SubRule := brace2 fun s =>
  (litP "if".data (dropSpacesP s)).bind fun s1 =>
  (spaces1P s1).bind fun s2 =>
  (litP ".".data s2).bind fun s3 =>
  (word1P s3).bind fun w1 =>
  (litP ".".data w1.2).bind fun s4 =>
  (word1P s4).bind fun w2 =>
  (litP "\x7d\x7d".data (dropSpacesP w2.2)).map fun s5 =>
  ("\x7b% if ".data ++ w1.1 ++ ".".data ++ w2.1 ++ " %\x7d".data, s5)

/-- Line 29: string equality test, one component. -/
def R8_ifEq1 : SubRule := brace2 fun s =>
  (litP "if".data (dropSpacesP s)).bind fun s1 =>
  (spaces1P s1).bind fun s2 =>
  (litP "eq".data s2).bind fun s3 =>
  (spaces1P s3).bind fun s4 =>
  (litP ".".data s4).bind fun s5 =>
  (word1P s5).bind fun ws =>
  (spaces1P ws.2).bind fun s6 =>
  (litP "\"".data s6).bind fun s7 =>
  (notQuote1P s7).bind fun qs =>
  (litP "\"".data qs.2).bind fun s8 =>
  (litP "\x7d\x7d".data (dropSpacesP s8)).map fun s9 =>
  ("\x7b% if ".data ++ ws.1 ++ " == \"".data ++ qs.1 ++ "\" %\x7d".data, s9)

/-- Line 30: string equality test, two components. -/
def R9_ifEq2 : SubRule := brace2 fun s =>
  (litP "if".data (dropSpacesP s)).bind fun s1 =>
  (spaces1P s1).bind fun s2 =>
  (litP "eq".data s2).bind fun s3 =>
  (spaces1P s3).bind fun s4 =>
  (litP ".".data s4).bind fun s5 =>
  (word1P s5).bind fun w1 =>
  (litP ".".data w1.2).bind fun s6 =>
  (word1P s6).bind fun w2 =>
  (spaces1P w2.2).bind fun s7 =>
  (litP "\"".data s7).bind fun s8 =>
  (notQuote1P s8).bind fun qs =>
  (litP "\"".data qs.2).bind fun s9 =>
  (litP "\x7d\x7d".data (dropSpacesP s9)).map fun s10 =>
  ("\x7b% if ".data ++ w1.1 ++ ".".data ++ w2.1 ++ " == \"".data ++ qs.1 ++
    "\" %\x7d".data, s10)

/-- Line 33: string inequality test. -/
def R10_ifNe : SubRule := brace2 fun s =>
  (litP "if".data (dropSpacesP s)).bind fun s1 =>
  (spaces1P s1).bind fun s2 =>
  (litP "ne".data s2).bind fun s3 =>
  (spaces1P s3).bind fun s4 =>
  (litP ".".data s4).bind fun s5 =>
  (word1P s5).bind fun ws =>
  (spaces1P ws.2).bind fun s6 =>
  (litP "\"".data s6).bind fun s7 =>
  (notQuote1P s7).bind fun qs =>
  (litP "\"".data qs.2).bind fun s8 =>
  (litP "\x7d\x7d".data (dropSpacesP s8)).map fun s9 =>
  ("\x7b% if ".data ++ ws.1 ++ " != \"".data ++ qs.1 ++ "\" %\x7d".data, s9)

/-- Line 36: numeric greater-than test. -/
def R11_ifGt : SubRule := brace2 fun s =>
  (litP "if".data (dropSpacesP s)).bind fun s1 =>
  (spaces1P s1).bind fun s2 =>
  (litP "gt".data s2).bind fun s3 =>
  (spaces1P s3).bind fun s4 =>
  (litP ".".data s4).bind fun s5 =>
  (word1P s5).bind fun ws =>
  (spaces1P ws.2).bind fun s6 =>
  (digits1P s6).bind fun ds =>
  (litP "\x7d\x7d".data (dropSpacesP ds.2)).map fun s7 =>
  ("\x7b% if ".data ++ ws.1 ++ " > ".data ++ ds.1 ++ " %\x7d".data, s7)

/-- Line 39: numeric less-than test. -/
def R12_ifLt : SubRule := brace2 fun s =>
  (litP "if".data (dropSpacesP s)).bind fun s1 =>
  (spaces1P s1).bind fun s2 =>
  (litP "lt".data s2).bind fun s3 =>
  (spaces1P s3).bind fun s4 =>
  (litP ".".data s4).bind fun s5 =>
  (word1P s5).bind fun ws =>
  (spaces1P ws.2).bind fun s6 =>
  (digits1P s6).bind fun ds =>
  (litP "\x7d\x7d".data (dropSpacesP ds.2)).map fun s7 =>
  ("\x7b% if ".data ++ ws.1 ++ " < ".data ++ ds.1 ++ " %\x7d".data, s7)

/-- Line 42: else token. -/
def R13_else : SubRule := brace2 fun s =>
  (litP "else".data (dropSpacesP s)).bind fun s1 =>
  (litP "\x7d\x7d".data (dropSpacesP s1)).map fun s2 =>
  ("\x7b% else %\x7d".data, s2)

/-- Line 45: else-if token. -/
def R14_elif : SubRule := brace2 fun s =>
  (litP "else".data (dropSpacesP s)).bind fun s1 =>
  (spaces1P s1).bind fun s2 =>
  (litP "if".data s2).bind fun s3 =>
  (spaces1P s3).bind fun s4 =>
  (litP ".".data s4).bind fun s5 =>
  (word1P s5).bind fun ws =>
  (litP "\x7d\x7d".data (dropSpacesP ws.2)).map fun s6 =>
  ("\x7b% elif ".data ++ ws.1 ++ " %\x7d".data, s6)

/-- Line 48: range over a collection (regex
`\x7b\x7b\s*range\s+\.(\w+)\s*\x7d\x7d` becoming
`\x7b% for item in \1 %\x7d`). -/
def R15_range1 : SubRule := brace2 fun s =>
  (litP "range".data (dropSpacesP s)).bind fun s1 =>
  (spaces1P s1).bind fun s2 =>
  (litP ".".data s2).bind fun s3 =>
  (word1P s3).bind fun ws =>
  (litP "\x7d\x7d".data (dropSpacesP ws.2)).map fun s4 =>
  ("\x7b% for item in ".data ++ ws.1 ++ " %\x7d".data, s4)

/-- Line 51: key/value range. -/
def R16_rangeKV : SubRule := brace2 fun s =>
  (litP "range".data (dropSpacesP s)).bind fun s1 =>
  (spaces1P s1).bind fun s2 =>
  (litP "$".data s2).bind fun s3 =>
  (word1P s3).bind fun w1 =>
  (litP ",".data w1.2).bind fun s4 =>
  (litP "$".data (dropSpacesP s4)).bind fun s5 =>
  (word1P s5).bind fun w2 =>
  (litP ":=".data (dropSpacesP w2.2)).bind fun s6 =>
  (litP ".".data (dropSpacesP s6)).bind fun s7 =>
  (word1P s7).bind fun w3 =>
  (litP "\x7d\x7d".data (dropSpacesP w3.2)).map fun s8 =>
  ("\x7b% for ".data ++ w1.1 ++ ", ".data ++ w2.1 ++ " in ".data ++ w3.1 ++
    ".items %\x7d".data, s8)

/-- Line 54: index/item range (first group not captured). -/
def R17_rangeIdx : SubRule := brace2 fun s =>
  (litP "range".data (dropSpacesP s)).bind fun s1 =>
  (spaces1P s1).bind fun s2 =>
  (litP "$".data s2).bind fun s3 =>
  (word1P s3).bind fun w1 =>
  (litP ",".data w1.2).bind fun s4 =>
  (litP "$".data (dropSpacesP s4)).bind fun s5 =>
  (word1P s5).bind fun w2 =>
  (litP ":=".data (dropSpacesP w2.2)).bind fun s6 =>
  (litP ".".data (dropSpacesP s6)).bind fun s7 =>
  (word1P s7).bind fun w3 =>
  (litP "\x7d\x7d".data (dropSpacesP w3.2)).map fun s8 =>
  ("\x7b% for ".data ++ w2.1 ++ " in ".data ++ w3.1 ++ " %\x7d".data, s8)

/-- Line 57: parent-context variable. -/
def R18_parentVar : SubRule := brace2 fun s =>
  (litP "$.".data (dropSpacesP s)).bind fun s1 =>
  (word1P s1).bind fun ws =>
  (litP "\x7d\x7d".data (dropSpacesP ws.2)).map fun s2 =>
  ("\x7b\x7b ".data ++ ws.1 ++ " \x7d\x7d".data, s2)

/-- Line 63: every remaining end token becomes an endif (regex
`\x7b\x7b\s*end\s*\x7d\x7d` becoming `\x7b% endif %\x7d` — the source
comment notes range endings would need `\x7b% endfor %\x7d` but converts
all of them to endif). -/
def R19_endTok : SubRule := brace2 fun s =>
  (litP "end".data (dropSpacesP s)).bind fun s1 =>
  (litP "\x7d\x7d".data (dropSpacesP s1)).map fun s2 =>
  ("\x7b% endif %\x7d".data, s2)

/-- Line 66: template inclusion. -/
def R20_template : SubRule := brace2 fun s =>
  (litP "template".data (dropSpacesP s)).bind fun s1 =>
  (spaces1P s1).bind fun s2 =>
  (litP "\"".data s2).bind fun s3 =>
  (notQuote1P s3).bind fun qs =>
  (litP "\"".data qs.2).bind fun s4 =>
  (litP ".".data (dropSpacesP s4)).bind fun s5 =>
  (litP "\x7d\x7d".data (dropSpacesP s5)).map fun s6 =>
  ("\x7b% include \"".data ++ qs.1 ++ "\" %\x7d".data, s6)

/-- Line 69: block opener. -/
def R21_block : SubRule := brace2 fun s =>
  (litP "block".data (dropSpacesP s)).bind fun s1 =>
  (spaces1P s1).bind fun s2 =>
  (litP "\"".data s2).bind fun s3 =>
  (notQuote1P s3).bind fun qs =>
  (litP "\"".data qs.2).bind fun s4 =>
  (litP ".".data (dropSpacesP s4)).bind fun s5 =>
  (litP "\x7d\x7d".data (dropSpacesP s5)).map fun s6 =>
  ("\x7b% block ".data ++ qs.1 ++ " %\x7d".data, s6)

/-- Line 74: left whitespace-trim marker. -/
def R22_trimL : SubRule := brace2 fun s =>
  (litP "-".data s).map fun s1 => ("\x7b%-".data, s1)

/-- Line 75: right whitespace-trim marker. -/
def R23_trimR : SubRule := fun s =>
  match s with
  | c1 :: c2 :: c3 :: rest =>
    if c1 = '-' ∧ c2 = '\x7d' ∧ c3 = '\x7d' then some ("-%\x7d".data, rest)
    else none
  | _ => none

/-- Line 79: filter pipe. -/
def R24_pipe : SubRule := brace2 fun s =>
  (litP ".".data (dropSpacesP s)).bind fun s1 =>
  (word1P s1).bind fun ws =>
  (litP "|".data (dropSpacesP ws.2)).bind fun s2 =>
  (word1P (dropSpacesP s2)).bind fun fs =>
  (litP "\x7d\x7d".data (dropSpacesP fs.2)).map fun s3 =>
  ("\x7b\x7b ".data ++ ws.1 ++ "|".data ++ fs.1 ++ " \x7d\x7d".data, s3)

/-- Line 82: collapse whitespace after an opening double brace. -/
def R25_cleanOpen : SubRule := brace2 fun s =>
  (spaces1P s).map fun s1 => ("\x7b\x7b ".data, s1)

/-- Line 83: collapse whitespace before a closing double brace. -/
def R26_cleanClose : SubRule := fun s =>
  (spaces1P s).bind fun s1 =>
  (litP "\x7d\x7d".data s1).map fun s2 => (" \x7d\x7d".data, s2)

/-- The full conversion pipeline (`convert_go_to_pongo2`,
`src/scripts/fix_pongo2_syntax.py` lines 6-85), one `re.sub` pass per
line, in source order. -/
def convert_go_to_pongo2 (content : List Char) : List Char :=
  let s1 := subAll R1_define content
  let s2 := subAll R2_endTrail s1
  let s3 := subAll R3_var1 s2
  let s4 := subAll R4_var2 s3
  let s5 := subAll R5_var3 s4
  let s6 := subAll R6_if1 s5
  let s7 := subAll R7_if2 s6
  let s8 := subAll R8_ifEq1 s7
  let s9 := subAll R9_ifEq2 s8
  let s10 := subAll R10_ifNe s9
  let s11 := subAll R11_ifGt s10
  let s12 := subAll R12_ifLt s11
  let s13 := subAll R13_else s12
  let s14 := subAll R14_elif s13
  let s15 := subAll R15_range1 s14
  let s16 := subAll R16_rangeKV s15
  let s17 := subAll R17_rangeIdx s16
  let s18 := subAll R18_parentVar s17
  let s19 := subAll R19_endTok s18
  let s20 := subAll R20_template s19
  let s21 := subAll R21_block s20
  let s22 := subAll R22_trimL s21
  let s23 := subAll R23_trimR s22
  let s24 := subAll R24_pipe s23
  let s25 := subAll R25_cleanOpen s24
  subAll R26_cleanClose s25

/-- C10 counterexample: on the input `\x7b\x7brange .Items\x7d\x7dx\x7b\x7bend\x7d\x7d`
(a Go range loop whose end token closes the input) the conversion deletes
the trailing end token via the line-11 substitution before line 63 can
rewrite it, so the converted output closes the loop with nothing at all —
no `\x7b% endif %\x7d` is emitted, contradicting the claim that every end
token is rewritten to an endif. -/
theorem C10_counterexample :
    convert_go_to_pongo2 "\x7b\x7brange .Items\x7d\x7dx\x7b\x7bend\x7d\x7d".data =
      "\x7b% for item in Items %\x7dx".data ∧
    containsL "\x7b% endif %\x7d".data
      (convert_go_to_pongo2
        "\x7b\x7brange .Items\x7d\x7dx\x7b\x7bend\x7d\x7d".data) = false := by
  decide

/-- No position of `s` matches rule `r`. -/
def NoMatchR (r : SubRule) (s : List Char) : Prop := ∀ n, r (s.drop n) = none

theorem noMatch_tail {r : SubRule} {c : Char} {cs : List Char}
    (h : NoMatchR r (c :: cs)) : NoMatchR r cs := fun n => by
  have h' := h (n + 1)
  simpa [List.drop_succ_cons] using h'

theorem applyRule_no_match (r : SubRule) (f : Nat) (s : List Char)
    (h : NoMatchR r s) : applyRule r f s = s := by
  induction f generalizing s with
  | zero => rfl
  | succ f ih =>
    cases s with
    | nil => rfl
    | cons c cs =>
      have h0 : r (c :: cs) = none := h 0
      simp only [applyRule, h0]
      rw [ih cs (noMatch_tail h)]

theorem subAll_no_match (r : SubRule) (s : List Char) (h : NoMatchR r s) :
    subAll r s = s :=
  applyRule_no_match r s.length s h

theorem applyRule_single (r : SubRule) (b rep b' : List Char)
    (hb : r b = some (rep, b')) (hbne : b ≠ []) (hb' : NoMatchR r b') :
    ∀ (a : List Char) (f : Nat), a.length < f →
      (∀ i, i < a.length → r ((a ++ b).drop i) = none) →
      applyRule r f (a ++ b) = a ++ rep ++ b' := by
  intro a
  induction a with
  | nil =>
    intro f hf ha
    cases b with
    | nil => exact absurd rfl hbne
    | cons x xs =>
      cases f with
      | zero => omega
      | succ g =>
        simp only [List.nil_append] at hb ⊢
        simp only [applyRule, List.append_eq, hb]
        rw [applyRule_no_match r g b' hb']
  | cons c a' ih =>
    intro f hf ha
    cases f with
    | zero => simp at hf
    | succ g =>
      have h0 : r (c :: (a' ++ b)) = none := by
        have h' := ha 0 (by simp)
        simpa using h'
      have hlen : a'.length < g := by simp at hf; omega
      have ha' : ∀ i, i < a'.length → r ((a' ++ b).drop i) = none := by
        intro i hi
        have h' := ha (i + 1) (by simp; omega)
        simpa using h'
      simp only [List.cons_append, applyRule, List.append_eq, h0]
      rw [ih g hlen ha']

theorem subAll_single (r : SubRule) (a b rep b' : List Char)
    (ha : ∀ i, i < a.length → r ((a ++ b).drop i) = none)
    (hb : r b = some (rep, b')) (hbne : b ≠ []) (hb' : NoMatchR r b') :
    subAll r (a ++ b) = a ++ rep ++ b' := by
  apply applyRule_single r b rep b' hb hbne hb' a ((a ++ b).length) _ ha
  cases b with
  | nil => exact absurd rfl hbne
  | cons x xs => simp

theorem brace2_none_of_take2 (k : SubRule) (s : List Char)
    (h : s.take 2 ≠ ['\x7b', '\x7b']) : brace2 k s = none := by
  match s with
  | [] => rfl
  | [c] => rfl
  | c1 :: c2 :: rest =>
    by_cases hc : c1 = '\x7b' ∧ c2 = '\x7b'
    · exact absurd (by simp [hc.1, hc.2]) h
    · simp [brace2, hc]

theorem brace2_braces (k : SubRule) (rest : List Char) :
    brace2 k ('\x7b' :: '\x7b' :: rest) = k rest := by
  simp [brace2]

theorem take2_of_braces {s : List Char} (h : s.take 2 = ['\x7b', '\x7b']) :
    s = '\x7b' :: '\x7b' :: s.drop 2 := by
  match s with
  | [] => simp at h
  | [c] => simp at h
  | c1 :: c2 :: rest =>
    simp [List.take] at h
    simp [h.1, h.2]

theorem noMatch_brace2_of (k : SubRule) (s : List Char)
    (h : ∀ n, (s.drop n).take 2 = ['\x7b', '\x7b'] → k (s.drop (n + 2)) = none) :
    NoMatchR (brace2 k) s := by
  intro n
  by_cases ht : (s.drop n).take 2 = ['\x7b', '\x7b']
  · rw [take2_of_braces ht, brace2_braces]
    have hd : (s.drop n).drop 2 = s.drop (n + 2) := by rw [List.drop_drop]
    rw [hd]
    exact h n ht
  · exact brace2_none_of_take2 k _ ht

theorem take2_head_ne_pair (c p q : Char) (l : List Char) (h : c ≠ p) :
    (c :: l).take 2 ≠ [p, q] := by
  cases l with
  | nil => simp
  | cons d ds =>
    intro heq
    simp [List.take] at heq
    exact h heq.1

theorem take2_in_seg (A X : List Char) (n : Nat) (h2 : n + 2 ≤ A.length) :
    ((A ++ X).drop n).take 2 = (A.drop n).take 2 := by
  rw [List.drop_append_of_le_length (by omega)]
  rw [List.take_append_of_le_length (by simp [List.length_drop]; omega)]

theorem drop_append_ge (A X : List Char) (n : Nat) (h : A.length ≤ n) :
    (A ++ X).drop n = X.drop (n - A.length) := by
  rw [List.drop_append_eq_append_drop]
  have hnil : A.drop n = [] := by
    apply List.drop_eq_nil_of_le h
  simp [hnil]

theorem braceFree_pos_take2 (l X : List Char) (p q : Char) (j : Nat)
    (hj : j < l.length) (h : ∀ c ∈ l, c ≠ p) :
    ((l ++ X).drop j).take 2 ≠ [p, q] := by
  rw [List.drop_append_of_le_length (le_of_lt hj)]
  rw [List.drop_eq_getElem_cons hj, List.cons_append]
  exact take2_head_ne_pair _ p q _ (h _ (List.getElem_mem hj))

theorem dropWhile_eq_drop (p : Char → Bool) (l : List Char) :
    ∃ k, l.dropWhile p = l.drop k := by
  induction l with
  | nil => exact ⟨0, rfl⟩
  | cons c cs ih =>
    by_cases h : p c
    · obtain ⟨k, hk⟩ := ih
      exact ⟨k + 1, by simp [List.dropWhile, h, hk, List.drop_succ_cons]⟩
    · exact ⟨0, by simp [List.dropWhile, h]⟩

theorem dropWhile_ne_nil_of_mem {l : List Char} {c : Char} (hc : c ∈ l)
    (hcp : isSpaceC c = false) : l.dropWhile isSpaceC ≠ [] := by
  induction l with
  | nil => simp at hc
  | cons d ds ih =>
    by_cases hd : isSpaceC d
    · rcases List.mem_cons.mp hc with h | h
      · subst h; rw [hd] at hcp; simp at hcp
      · simpa [List.dropWhile, hd] using ih h
    · simp [List.dropWhile, hd]

theorem litP_eq_some {p : List Char} : ∀ {s r : List Char},
    litP p s = some r ↔ s = p ++ r := by
  induction p with
  | nil => intro s r; simp [litP]
  | cons pc pp ih =>
    intro s r
    cases s with
    | nil => simp [litP]
    | cons c cs =>
      by_cases h : pc = c
      · subst h
        simp [litP, ih]
      · simp only [litP, if_neg h]
        constructor
        · intro hx; cases hx
        · intro hx
          simp [List.cons_append] at hx
          exact absurd hx.1.symm h

/-- The concrete range opener used in the amended claim. -/
def rangeOpenL : List Char := "\x7b\x7brange .Items\x7d\x7d".data

/-- The range opener with its leading double brace removed. -/
def afterRangeL : List Char := "range .Items\x7d\x7d".data

/-- The Go end token. -/
def endTokL : List Char := "\x7b\x7bend\x7d\x7d".data

/-- The end token with its leading double brace removed. -/
def afterEndL : List Char := "end\x7d\x7d".data

/-- The pongo2 loop opener produced by line 48. -/
def forOpenL : List Char := "\x7b% for item in Items %\x7d".data

/-- The pongo2 endif token produced by line 63. -/
def endifOutL : List Char := "\x7b% endif %\x7d".data

theorem rangeOpen_len : rangeOpenL.length = 16 := by decide

theorem endTok_len : endTokL.length = 7 := by decide

theorem forOpen_len : forOpenL.length = 23 := by decide

theorem endifOut_len : endifOutL.length = 11 := by decide

theorem rangeOpen_mid : ∀ i, i < 15 → i ≠ 0 →
    (rangeOpenL.drop i).take 2 ≠ ['\x7b', '\x7b'] := by decide

theorem endTok_mid : ∀ i, 1 ≤ i → i ≤ 5 →
    (endTokL.drop i).take 2 ≠ ['\x7b', '\x7b'] := by decide

theorem forOpen_mid : ∀ i, i ≤ 21 →
    (forOpenL.drop i).take 2 ≠ ['\x7b', '\x7b'] := by decide

theorem forOpen_mid_close : ∀ i, i ≤ 21 →
    (forOpenL.drop i).take 2 ≠ ['\x7d', '\x7d'] := by decide

theorem endifOut_mid : ∀ i, i ≤ 9 →
    (endifOutL.drop i).take 2 ≠ ['\x7b', '\x7b'] := by decide

theorem endifOut_mid_close : ∀ i, i ≤ 9 →
    (endifOutL.drop i).take 2 ≠ ['\x7d', '\x7d'] := by decide

/-- Double braces inside `body ++ endTokL ++ tail` occur only at the start
of the end token (given brace-free `body` and `tail`). -/
theorem rest_take2 (body tail : List Char)
    (hbody : ∀ c ∈ body, c ≠ '\x7b') (htail : ∀ c ∈ tail, c ≠ '\x7b') :
    ∀ m, ((body ++ (endTokL ++ tail)).drop m).take 2 = ['\x7b', '\x7b'] →
      m = body.length ∧
        (body ++ (endTokL ++ tail)).drop (m + 2) = afterEndL ++ tail := by
  intro m htake
  by_cases hm : m < body.length
  · exact absurd htake (braceFree_pos_take2 body _ _ _ m hm hbody)
  · have hdrop : (body ++ (endTokL ++ tail)).drop m =
        (endTokL ++ tail).drop (m - body.length) := drop_append_ge _ _ _ (by omega)
    rw [hdrop] at htake
    by_cases hk0 : m - body.length = 0
    · refine ⟨by omega, ?_⟩
      rw [drop_append_ge _ _ _ (by omega)]
      rw [show m + 2 - body.length = 2 from by omega]
      rw [List.drop_append_of_le_length (show 2 ≤ endTokL.length from by decide)]
      rw [show endTokL.drop 2 = afterEndL from by decide]
    · exfalso
      by_cases hk5 : m - body.length ≤ 5
      · rw [take2_in_seg _ _ _ (by rw [endTok_len]; omega)] at htake
        exact endTok_mid _ (by omega) hk5 htake
      · by_cases hk6 : m - body.length = 6
        · rw [List.drop_append_of_le_length (by rw [endTok_len]; omega)] at htake
          rw [hk6, show endTokL.drop 6 = ['\x7d'] from by decide,
            List.singleton_append] at htake
          exact take2_head_ne_pair _ _ _ _ (by decide) htake
        · have h7 : endTokL.length ≤ m - body.length := by rw [endTok_len]; omega
          rw [drop_append_ge _ _ _ h7] at htake
          by_cases ht : m - body.length - endTokL.length < tail.length
          · rw [List.drop_eq_getElem_cons ht] at htake
            exact take2_head_ne_pair _ _ _ _ (htail _ (List.getElem_mem ht)) htake
          · rw [List.drop_eq_nil_of_le (by omega)] at htake
            simp at htake

/-- Double braces inside the full input occur only at the range opener and
at the end token. -/
theorem T0_take2 (body tail : List Char)
    (hbody : ∀ c ∈ body, c ≠ '\x7b') (htail : ∀ c ∈ tail, c ≠ '\x7b') :
    ∀ n, ((rangeOpenL ++ (body ++ (endTokL ++ tail))).drop n).take 2 =
        ['\x7b', '\x7b'] →
      (n = 0 ∧ (rangeOpenL ++ (body ++ (endTokL ++ tail))).drop (n + 2) =
        afterRangeL ++ (body ++ (endTokL ++ tail))) ∨
      (n = 16 + body.length ∧
        (rangeOpenL ++ (body ++ (endTokL ++ tail))).drop (n + 2) =
          afterEndL ++ tail) := by
  intro n htake
  by_cases h16 : n < 16
  · by_cases h0 : n = 0
    · left
      refine ⟨h0, ?_⟩
      subst h0
      rw [List.drop_append_of_le_length (by rw [rangeOpen_len]; omega)]
      rw [show rangeOpenL.drop 2 = afterRangeL from by decide]
    · exfalso
      by_cases h15 : n + 2 ≤ 16
      · rw [take2_in_seg _ _ _ (by rw [rangeOpen_len]; omega)] at htake
        exact rangeOpen_mid n (by omega) h0 htake
      · have h15' : n = 15 := by omega
        rw [List.drop_append_of_le_length (by rw [rangeOpen_len]; omega)] at htake
        rw [h15', show rangeOpenL.drop 15 = ['\x7d'] from by decide,
          List.singleton_append] at htake
        exact take2_head_ne_pair _ _ _ _ (by decide) htake
  · have hdrop : (rangeOpenL ++ (body ++ (endTokL ++ tail))).drop n =
        (body ++ (endTokL ++ tail)).drop (n - 16) := by
      rw [drop_append_ge _ _ _ (by rw [rangeOpen_len]; omega), rangeOpen_len]
    rw [hdrop] at htake
    obtain ⟨hm, hd⟩ := rest_take2 body tail hbody htail _ htake
    right
    refine ⟨by omega, ?_⟩
    rw [drop_append_ge _ _ _ (by rw [rangeOpen_len]; omega), rangeOpen_len]
    rw [show n + 2 - 16 = n - 16 + 2 from by omega]
    exact hd

/-- Double braces after the range substitution occur only at the end
token. -/
theorem T1_take2 (body tail : List Char)
    (hbody : ∀ c ∈ body, c ≠ '\x7b') (htail : ∀ c ∈ tail, c ≠ '\x7b') :
    ∀ n, ((forOpenL ++ (body ++ (endTokL ++ tail))).drop n).take 2 =
        ['\x7b', '\x7b'] →
      n = 23 + body.length ∧
        (forOpenL ++ (body ++ (endTokL ++ tail))).drop (n + 2) =
          afterEndL ++ tail := by
  intro n htake
  by_cases h23 : n < 23
  · exfalso
    by_cases h22 : n + 2 ≤ 23
    · rw [take2_in_seg _ _ _ (by rw [forOpen_len]; omega)] at htake
      exact forOpen_mid n (by omega) htake
    · have h22' : n = 22 := by omega
      rw [List.drop_append_of_le_length (by rw [forOpen_len]; omega)] at htake
      rw [h22', show forOpenL.drop 22 = ['\x7d'] from by decide,
        List.singleton_append] at htake
      exact take2_head_ne_pair _ _ _ _ (by decide) htake
  · have hdrop : (forOpenL ++ (body ++ (endTokL ++ tail))).drop n =
        (body ++ (endTokL ++ tail)).drop (n - 23) := by
      rw [drop_append_ge _ _ _ (by rw [forOpen_len]; omega), forOpen_len]
    rw [hdrop] at htake
    obtain ⟨hm, hd⟩ := rest_take2 body tail hbody htail _ htake
    refine ⟨by omega, ?_⟩
    rw [drop_append_ge _ _ _ (by rw [forOpen_len]; omega), forOpen_len]
    rw [show n + 2 - 23 = n - 23 + 2 from by omega]
    exact hd

theorem take2_second_ne (c p q : Char) (X : List Char)
    (hX : ∀ d ∈ X.take 1, d ≠ q) : (c :: X).take 2 ≠ [p, q] := by
  cases X with
  | nil => simp
  | cons x xs =>
    intro heq
    simp [List.take] at heq
    exact hX x (by simp [List.take]) heq.2

/-- No double brace at all remains after the end substitution. -/
theorem T2_no_open (body tail : List Char)
    (hbody : ∀ c ∈ body, c ≠ '\x7b') (htail : ∀ c ∈ tail, c ≠ '\x7b') :
    ∀ n, ((forOpenL ++ (body ++ (endifOutL ++ tail))).drop n).take 2 ≠
      ['\x7b', '\x7b'] := by
  intro n
  by_cases h23 : n < 23
  · by_cases h22 : n + 2 ≤ 23
    · rw [take2_in_seg _ _ _ (by rw [forOpen_len]; omega)]
      exact forOpen_mid n (by omega)
    · have h22' : n = 22 := by omega
      rw [List.drop_append_of_le_length (by rw [forOpen_len]; omega)]
      rw [h22', show forOpenL.drop 22 = ['\x7d'] from by decide,
        List.singleton_append]
      exact take2_head_ne_pair _ _ _ _ (by decide)
  · have hdrop : (forOpenL ++ (body ++ (endifOutL ++ tail))).drop n =
        (body ++ (endifOutL ++ tail)).drop (n - 23) := by
      rw [drop_append_ge _ _ _ (by rw [forOpen_len]; omega), forOpen_len]
    rw [hdrop]
    by_cases hm : n - 23 < body.length
    · exact braceFree_pos_take2 body _ _ _ _ hm hbody
    · rw [drop_append_ge _ _ _ (by omega)]
      by_cases hk9 : n - 23 - body.length + 2 ≤ 11
      · rw [take2_in_seg _ _ _ (by rw [endifOut_len]; omega)]
        exact endifOut_mid _ (by omega)
      · by_cases hk10 : n - 23 - body.length = 10
        · rw [List.drop_append_of_le_length (by rw [endifOut_len]; omega)]
          rw [hk10, show endifOutL.drop 10 = ['\x7d'] from by decide,
            List.singleton_append]
          exact take2_head_ne_pair _ _ _ _ (by decide)
        · rw [drop_append_ge _ _ _ (by rw [endifOut_len]; omega), endifOut_len]
          by_cases ht : n - 23 - body.length - 11 < tail.length
          · rw [List.drop_eq_getElem_cons ht]
            exact take2_head_ne_pair _ _ _ _ (htail _ (List.getElem_mem ht))
          · rw [List.drop_eq_nil_of_le (by omega)]
            simp

/-- No double closing brace remains after the end substitution. -/
theorem T2_no_close (body tail : List Char)
    (hbody : ∀ c ∈ body, c ≠ '\x7d') (htail : ∀ c ∈ tail, c ≠ '\x7d') :
    ∀ n, ((forOpenL ++ (body ++ (endifOutL ++ tail))).drop n).take 2 ≠
      ['\x7d', '\x7d'] := by
  intro n
  by_cases h23 : n < 23
  · by_cases h22 : n + 2 ≤ 23
    · rw [take2_in_seg _ _ _ (by rw [forOpen_len]; omega)]
      exact forOpen_mid_close n (by omega)
    · have h22' : n = 22 := by omega
      rw [List.drop_append_of_le_length (by rw [forOpen_len]; omega)]
      rw [h22', show forOpenL.drop 22 = ['\x7d'] from by decide,
        List.singleton_append]
      apply take2_second_ne
      intro d hd
      cases body with
      | nil =>
        simp only [List.nil_append] at hd
        have : d = '\x7b' := by
          rw [show (endifOutL ++ tail).take 1 = ['\x7b'] from by
            rw [List.take_append_of_le_length (by rw [endifOut_len]; omega)]
            decide] at hd
          simpa using hd
        rw [this]; decide
      | cons b bs =>
        simp only [List.cons_append, List.take] at hd
        simp at hd
        rw [hd]
        exact hbody b (by simp)
  · have hdrop : (forOpenL ++ (body ++ (endifOutL ++ tail))).drop n =
        (body ++ (endifOutL ++ tail)).drop (n - 23) := by
      rw [drop_append_ge _ _ _ (by rw [forOpen_len]; omega), forOpen_len]
    rw [hdrop]
    by_cases hm : n - 23 < body.length
    · exact braceFree_pos_take2 body _ _ _ _ hm hbody
    · rw [drop_append_ge _ _ _ (by omega)]
      by_cases hk9 : n - 23 - body.length + 2 ≤ 11
      · rw [take2_in_seg _ _ _ (by rw [endifOut_len]; omega)]
        exact endifOut_mid_close _ (by omega)
      · by_cases hk10 : n - 23 - body.length = 10
        · rw [List.drop_append_of_le_length (by rw [endifOut_len]; omega)]
          rw [hk10, show endifOutL.drop 10 = ['\x7d'] from by decide,
            List.singleton_append]
          apply take2_second_ne
          intro d hd
          cases tail with
          | nil => simp at hd
          | cons t ts =>
            simp [List.take] at hd
            rw [hd]
            exact htail t (by simp)
        · rw [drop_append_ge _ _ _ (by rw [endifOut_len]; omega), endifOut_len]
          by_cases ht : n - 23 - body.length - 11 < tail.length
          · rw [List.drop_eq_getElem_cons ht]
            exact take2_head_ne_pair _ _ _ _ (htail _ (List.getElem_mem ht))
          · rw [List.drop_eq_nil_of_le (by omega)]
            simp

theorem noMatch_T0_brace2 (body tail : List Char)
    (hbody : ∀ c ∈ body, c ≠ '\x7b') (htail : ∀ c ∈ tail, c ≠ '\x7b')
    (k : SubRule)
    (h0 : k (afterRangeL ++ (body ++ (endTokL ++ tail))) = none)
    (hB : k (afterEndL ++ tail) = none) :
    NoMatchR (brace2 k) (rangeOpenL ++ (body ++ (endTokL ++ tail))) :=
  noMatch_brace2_of _ _ (fun n htake => by
    rcases T0_take2 body tail hbody htail n htake with ⟨_, hd⟩ | ⟨_, hd⟩
    · rw [hd]; exact h0
    · rw [hd]; exact hB)

theorem noMatch_rest_brace2 (body tail : List Char)
    (hbody : ∀ c ∈ body, c ≠ '\x7b') (htail : ∀ c ∈ tail, c ≠ '\x7b')
    (k : SubRule) (hB : k (afterEndL ++ tail) = none) :
    NoMatchR (brace2 k) (body ++ (endTokL ++ tail)) :=
  noMatch_brace2_of _ _ (fun m htake => by
    obtain ⟨_, hd⟩ := rest_take2 body tail hbody htail m htake
    rw [hd]; exact hB)

theorem noMatch_T1_brace2 (body tail : List Char)
    (hbody : ∀ c ∈ body, c ≠ '\x7b') (htail : ∀ c ∈ tail, c ≠ '\x7b')
    (k : SubRule) (hB : k (afterEndL ++ tail) = none) :
    NoMatchR (brace2 k) (forOpenL ++ (body ++ (endTokL ++ tail))) :=
  noMatch_brace2_of _ _ (fun n htake => by
    obtain ⟨_, hd⟩ := T1_take2 body tail hbody htail n htake
    rw [hd]; exact hB)

theorem noMatch_T2_brace2 (body tail : List Char)
    (hbody : ∀ c ∈ body, c ≠ '\x7b') (htail : ∀ c ∈ tail, c ≠ '\x7b')
    (k : SubRule) :
    NoMatchR (brace2 k) (forOpenL ++ (body ++ (endifOutL ++ tail))) := fun n =>
  brace2_none_of_take2 k _ (T2_no_open body tail hbody htail n)

theorem noMatch_brace2_braceFree (k : SubRule) (l : List Char)
    (h : ∀ c ∈ l, c ≠ '\x7b') : NoMatchR (brace2 k) l := by
  intro n
  apply brace2_none_of_take2
  by_cases hn : n < l.length
  · rw [List.drop_eq_getElem_cons hn]
    exact take2_head_ne_pair _ _ _ _ (h _ (List.getElem_mem hn))
  · rw [List.drop_eq_nil_of_le (by omega)]
    simp

theorem noMatch_R23_of (s : List Char)
    (h : ∀ n, (s.drop n).take 2 ≠ ['\x7d', '\x7d']) : NoMatchR R23_trimR s := by
  intro n
  match hs : s.drop n with
  | [] => rfl
  | [c1] => rfl
  | [c1, c2] => rfl
  | c1 :: c2 :: c3 :: rest3 =>
    by_cases hc : c1 = '-' ∧ c2 = '\x7d' ∧ c3 = '\x7d'
    · exfalso
      apply h (n + 1)
      have hshift : s.drop (n + 1) = c2 :: c3 :: rest3 := by
        have h1 : s.drop (n + 1) = (s.drop n).drop 1 := by rw [List.drop_drop]
        rw [h1, hs]
        rfl
      rw [hshift]
      simp [List.take, hc.2.1, hc.2.2]
    · simp [R23_trimR, hc]

theorem noMatch_R26_of (s : List Char)
    (h : ∀ n, (s.drop n).take 2 ≠ ['\x7d', '\x7d']) :
    NoMatchR R26_cleanClose s := by
  intro n
  match hs : s.drop n with
  | [] => rfl
  | c :: cs =>
    by_cases hc : isSpaceC c
    · have hred : R26_cleanClose (c :: cs) =
          (litP "\x7d\x7d".data (cs.dropWhile isSpaceC)).map
            fun s2 => (" \x7d\x7d".data, s2) := by
        simp [R26_cleanClose, spaces1P, hc]
      rw [hred]
      cases hl : litP "\x7d\x7d".data (cs.dropWhile isSpaceC) with
      | none => rfl
      | some r =>
        exfalso
        have heq : cs.dropWhile isSpaceC = "\x7d\x7d".data ++ r :=
          litP_eq_some.mp hl
        obtain ⟨k, hk⟩ := dropWhile_eq_drop isSpaceC cs
        have hcs : cs = s.drop (n + 1) := by
          have h1 : s.drop (n + 1) = (s.drop n).drop 1 := by rw [List.drop_drop]
          rw [h1, hs]
          rfl
        apply h (n + 1 + k)
        have h2 : s.drop (n + 1 + k) = cs.drop k := by
          rw [hcs, List.drop_drop]
        rw [h2, ← hk, heq]
        rw [List.take_append_of_le_length (by decide)]
        decide
    · simp [R26_cleanClose, spaces1P, hc]

/-- The line-11 substitution never fires when the tail after the end token
contains a non-whitespace character. -/
theorem noMatch_R2_T0 (body tail : List Char)
    (hbody : ∀ c ∈ body, c ≠ '\x7b') (htail : ∀ c ∈ tail, c ≠ '\x7b')
    (hnws : ∃ c ∈ tail, isSpaceC c = false) :
    NoMatchR R2_endTrail (rangeOpenL ++ (body ++ (endTokL ++ tail))) := by
  intro n
  obtain ⟨k, hk⟩ :=
    dropWhile_eq_drop isSpaceC ((rangeOpenL ++ (body ++ (endTokL ++ tail))).drop n)
  have hd : dropSpacesP ((rangeOpenL ++ (body ++ (endTokL ++ tail))).drop n) =
      (rangeOpenL ++ (body ++ (endTokL ++ tail))).drop (n + k) := by
    rw [dropSpacesP, hk, List.drop_drop]
  unfold R2_endTrail
  rw [hd]
  cases hl : litP "\x7b\x7bend\x7d\x7d".data
      ((rangeOpenL ++ (body ++ (endTokL ++ tail))).drop (n + k)) with
  | none => rfl
  | some r =>
    have heq : (rangeOpenL ++ (body ++ (endTokL ++ tail))).drop (n + k) =
        "\x7b\x7bend\x7d\x7d".data ++ r := litP_eq_some.mp hl
    have htake : ((rangeOpenL ++ (body ++ (endTokL ++ tail))).drop (n + k)).take 2 =
        ['\x7b', '\x7b'] := by
      rw [heq, List.take_append_of_le_length (by decide)]
      decide
    rcases T0_take2 body tail hbody htail (n + k) htake with ⟨hz, _⟩ | ⟨hz, hd2⟩
    · exfalso
      have h3 : ((rangeOpenL ++ (body ++ (endTokL ++ tail))).drop (n + k)).take 3 =
          ['\x7b', '\x7b', 'e'] := by
        rw [heq, List.take_append_of_le_length (by decide)]
        decide
      rw [hz] at h3
      rw [List.drop_zero,
        List.take_append_of_le_length (by rw [rangeOpen_len]; omega)] at h3
      rw [show rangeOpenL.take 3 = ['\x7b', '\x7b', 'r'] from by decide] at h3
      simp at h3
    · have e1 : (rangeOpenL ++ (body ++ (endTokL ++ tail))).drop (n + k + 2) =
          afterEndL ++ r := by
        have hdd : (rangeOpenL ++ (body ++ (endTokL ++ tail))).drop (n + k + 2) =
            ((rangeOpenL ++ (body ++ (endTokL ++ tail))).drop (n + k)).drop 2 := by
          rw [List.drop_drop]
        rw [hdd, heq, List.drop_append_of_le_length (by decide)]
        rw [show ("\x7b\x7bend\x7d\x7d".data).drop 2 = afterEndL from by decide]
      have hr : r = tail := by
        have h2 := hd2.symm.trans e1
        exact (List.append_cancel_left h2).symm
      obtain ⟨c, hc, hcs⟩ := hnws
      have hne : tail.dropWhile isSpaceC ≠ [] := dropWhile_ne_nil_of_mem hc hcs
      rw [hr]
      have hemp : (dropSpacesP tail).isEmpty = false := by
        rw [dropSpacesP]
        cases he : tail.dropWhile isSpaceC with
        | nil => exact absurd he hne
        | cons x xs => rfl
      show (if (dropSpacesP tail).isEmpty = true then
          some (([] : List Char), ([] : List Char)) else none) = none
      rw [hemp]
      rfl

theorem startsL_self_append {α : Type} [DecidableEq α] (nd b : List α) :
    startsL nd (nd ++ b) = true := by
  induction nd with
  | nil => rfl
  | cons n ns ih => simp [startsL, ih]

theorem containsL_append_self {α : Type} [DecidableEq α] (nd a b : List α) :
    containsL nd (a ++ (nd ++ b)) = true := by
  induction a with
  | nil =>
    simp only [List.nil_append]
    cases hnd : nd with
    | nil => cases b <;> simp [containsL, startsL]
    | cons x xs =>
      rw [show (x :: xs) ++ b = x :: (xs ++ b) from rfl]
      rw [containsL]
      rw [show x :: (xs ++ b) = (x :: xs) ++ b from rfl]
      rw [startsL_self_append]
      rfl
  | cons x xs ih => simp [containsL, ih]

/-- C10 amended: for every input of the shape
`\x7b\x7brange .Items\x7d\x7d<body>\x7b\x7bend\x7d\x7d<tail>` where `body`
and `tail` contain no brace characters and `tail` contains at least one
non-whitespace character (so the end token is not trailing), the converted
output is exactly
`\x7b% for item in Items %\x7d<body>\x7b% endif %\x7d<tail>`: the end
token closing the range loop is rewritten to `\x7b% endif %\x7d` (which
therefore occurs in the output) and `\x7b% endfor %\x7d` is never emitted;
a trailing end token is instead deleted by the line-11 substitution. -/
theorem C10_amended_range_end (body tail : List Char)
    (hbody : ∀ c ∈ body, c ≠ '\x7b' ∧ c ≠ '\x7d')
    (htail : ∀ c ∈ tail, c ≠ '\x7b' ∧ c ≠ '\x7d')
    (hnws : ∃ c ∈ tail, isSpaceC c = false) :
    convert_go_to_pongo2 (rangeOpenL ++ body ++ endTokL ++ tail) =
      forOpenL ++ body ++ endifOutL ++ tail ∧
    containsL endifOutL
      (convert_go_to_pongo2 (rangeOpenL ++ body ++ endTokL ++ tail)) = true := by
  have hbody1 : ∀ c ∈ body, c ≠ '\x7b' := fun c hc => (hbody c hc).1
  have hbody2 : ∀ c ∈ body, c ≠ '\x7d' := fun c hc => (hbody c hc).2
  have htail1 : ∀ c ∈ tail, c ≠ '\x7b' := fun c hc => (htail c hc).1
  have htail2 : ∀ c ∈ tail, c ≠ '\x7d' := fun c hc => (htail c hc).2
  have eR1 : NoMatchR R1_define (rangeOpenL ++ (body ++ (endTokL ++ tail))) :=
    noMatch_T0_brace2 body tail hbody1 htail1 _ (by rfl) (by rfl)
  have eR2 : NoMatchR R2_endTrail (rangeOpenL ++ (body ++ (endTokL ++ tail))) :=
    noMatch_R2_T0 body tail hbody1 htail1 hnws
  have eR3 : NoMatchR R3_var1 (rangeOpenL ++ (body ++ (endTokL ++ tail))) :=
    noMatch_T0_brace2 body tail hbody1 htail1 _ (by rfl) (by rfl)
  have eR4 : NoMatchR R4_var2 (rangeOpenL ++ (body ++ (endTokL ++ tail))) :=
    noMatch_T0_brace2 body tail hbody1 htail1 _ (by rfl) (by rfl)
  have eR5 : NoMatchR R5_var3 (rangeOpenL ++ (body ++ (endTokL ++ tail))) :=
    noMatch_T0_brace2 body tail hbody1 htail1 _ (by rfl) (by rfl)
  have eR6 : NoMatchR R6_if1 (rangeOpenL ++ (body ++ (endTokL ++ tail))) :=
    noMatch_T0_brace2 body tail hbody1 htail1 _ (by rfl) (by rfl)
  have eR7 : NoMatchR R7_if2 (rangeOpenL ++ (body ++ (endTokL ++ tail))) :=
    noMatch_T0_brace2 body tail hbody1 htail1 _ (by rfl) (by rfl)
  have eR8 : NoMatchR R8_ifEq1 (rangeOpenL ++ (body ++ (endTokL ++ tail))) :=
    noMatch_T0_brace2 body tail hbody1 htail1 _ (by rfl) (by rfl)
  have eR9 : NoMatchR R9_ifEq2 (rangeOpenL ++ (body ++ (endTokL ++ tail))) :=
    noMatch_T0_brace2 body tail hbody1 htail1 _ (by rfl) (by rfl)
  have eR10 : NoMatchR R10_ifNe (rangeOpenL ++ (body ++ (endTokL ++ tail))) :=
    noMatch_T0_brace2 body tail hbody1 htail1 _ (by rfl) (by rfl)
  have eR11 : NoMatchR R11_ifGt (rangeOpenL ++ (body ++ (endTokL ++ tail))) :=
    noMatch_T0_brace2 body tail hbody1 htail1 _ (by rfl) (by rfl)
  have eR12 : NoMatchR R12_ifLt (rangeOpenL ++ (body ++ (endTokL ++ tail))) :=
    noMatch_T0_brace2 body tail hbody1 htail1 _ (by rfl) (by rfl)
  have eR13 : NoMatchR R13_else (rangeOpenL ++ (body ++ (endTokL ++ tail))) :=
    noMatch_T0_brace2 body tail hbody1 htail1 _ (by rfl) (by rfl)
  have eR14 : NoMatchR R14_elif (rangeOpenL ++ (body ++ (endTokL ++ tail))) :=
    noMatch_T0_brace2 body tail hbody1 htail1 _ (by rfl) (by rfl)
  have h15 : subAll R15_range1 (rangeOpenL ++ (body ++ (endTokL ++ tail))) =
      forOpenL ++ (body ++ (endTokL ++ tail)) := by
    have hmatch : R15_range1 (rangeOpenL ++ (body ++ (endTokL ++ tail))) =
        some (forOpenL, body ++ (endTokL ++ tail)) := by rfl
    have hrest : NoMatchR R15_range1 (body ++ (endTokL ++ tail)) :=
      noMatch_rest_brace2 body tail hbody1 htail1 _ (by rfl)
    have hne : rangeOpenL ++ (body ++ (endTokL ++ tail)) ≠ [] := by
      intro h
      have hlen := congrArg List.length h
      rw [List.length_append, rangeOpen_len] at hlen
      simp at hlen
    have := subAll_single R15_range1 []
      (rangeOpenL ++ (body ++ (endTokL ++ tail)))
      forOpenL (body ++ (endTokL ++ tail))
      (fun i hi => by simp at hi) hmatch hne hrest
    simpa using this
  have eR16 : NoMatchR R16_rangeKV (forOpenL ++ (body ++ (endTokL ++ tail))) :=
    noMatch_T1_brace2 body tail hbody1 htail1 _ (by rfl)
  have eR17 : NoMatchR R17_rangeIdx (forOpenL ++ (body ++ (endTokL ++ tail))) :=
    noMatch_T1_brace2 body tail hbody1 htail1 _ (by rfl)
  have eR18 : NoMatchR R18_parentVar (forOpenL ++ (body ++ (endTokL ++ tail))) :=
    noMatch_T1_brace2 body tail hbody1 htail1 _ (by rfl)
  have h19 : subAll R19_endTok (forOpenL ++ (body ++ (endTokL ++ tail))) =
      forOpenL ++ (body ++ (endifOutL ++ tail)) := by
    have hsplit : forOpenL ++ (body ++ (endTokL ++ tail)) =
        (forOpenL ++ body) ++ (endTokL ++ tail) := by rw [List.append_assoc]
    have hmatch : R19_endTok (endTokL ++ tail) = some (endifOutL, tail) := by rfl
    have hpre : ∀ i, i < (forOpenL ++ body).length →
        R19_endTok (((forOpenL ++ body) ++ (endTokL ++ tail)).drop i) = none := by
      intro i hi
      rw [← hsplit]
      by_cases ht : ((forOpenL ++ (body ++ (endTokL ++ tail))).drop i).take 2 =
          ['\x7b', '\x7b']
      · obtain ⟨heq, _⟩ := T1_take2 body tail hbody1 htail1 i ht
        rw [List.length_append, forOpen_len] at hi
        omega
      · exact brace2_none_of_take2 _ _ ht
    have hne : endTokL ++ tail ≠ [] := by
      intro h
      have hlen := congrArg List.length h
      rw [List.length_append, endTok_len] at hlen
      simp at hlen
    have htl : NoMatchR R19_endTok tail := noMatch_brace2_braceFree _ tail htail1
    rw [hsplit]
    rw [subAll_single R19_endTok (forOpenL ++ body) (endTokL ++ tail)
      endifOutL tail hpre hmatch hne htl]
    simp [List.append_assoc]
  have eR20 : NoMatchR R20_template (forOpenL ++ (body ++ (endifOutL ++ tail))) :=
    noMatch_T2_brace2 body tail hbody1 htail1 _
  have eR21 : NoMatchR R21_block (forOpenL ++ (body ++ (endifOutL ++ tail))) :=
    noMatch_T2_brace2 body tail hbody1 htail1 _
  have eR22 : NoMatchR R22_trimL (forOpenL ++ (body ++ (endifOutL ++ tail))) :=
    noMatch_T2_brace2 body tail hbody1 htail1 _
  have eR23 : NoMatchR R23_trimR (forOpenL ++ (body ++ (endifOutL ++ tail))) :=
    noMatch_R23_of _ (T2_no_close body tail hbody2 htail2)
  have eR24 : NoMatchR R24_pipe (forOpenL ++ (body ++ (endifOutL ++ tail))) :=
    noMatch_T2_brace2 body tail hbody1 htail1 _
  have eR25 : NoMatchR R25_cleanOpen (forOpenL ++ (body ++ (endifOutL ++ tail))) :=
    noMatch_T2_brace2 body tail hbody1 htail1 _
  have eR26 : NoMatchR R26_cleanClose (forOpenL ++ (body ++ (endifOutL ++ tail))) :=
    noMatch_R26_of _ (T2_no_close body tail hbody2 htail2)
  have hmain : convert_go_to_pongo2 (rangeOpenL ++ (body ++ (endTokL ++ tail))) =
      forOpenL ++ (body ++ (endifOutL ++ tail)) := by
    simp only [convert_go_to_pongo2]
    rw [subAll_no_match _ _ eR1, subAll_no_match _ _ eR2,
      subAll_no_match _ _ eR3, subAll_no_match _ _ eR4,
      subAll_no_match _ _ eR5, subAll_no_match _ _ eR6,
      subAll_no_match _ _ eR7, subAll_no_match _ _ eR8,
      subAll_no_match _ _ eR9, subAll_no_match _ _ eR10,
      subAll_no_match _ _ eR11, subAll_no_match _ _ eR12,
      subAll_no_match _ _ eR13, subAll_no_match _ _ eR14, h15,
      subAll_no_match _ _ eR16, subAll_no_match _ _ eR17,
      subAll_no_match _ _ eR18, h19,
      subAll_no_match _ _ eR20, subAll_no_match _ _ eR21,
      subAll_no_match _ _ eR22, subAll_no_match _ _ eR23,
      subAll_no_match _ _ eR24, subAll_no_match _ _ eR25,
      subAll_no_match _ _ eR26]
  have hassoc1 : rangeOpenL ++ body ++ endTokL ++ tail =
      rangeOpenL ++ (body ++ (endTokL ++ tail)) := by
    simp [List.append_assoc]
  have hassoc2 : forOpenL ++ body ++ endifOutL ++ tail =
      forOpenL ++ (body ++ (endifOutL ++ tail)) := by
    simp [List.append_assoc]
  constructor
  · rw [hassoc1, hmain, hassoc2]
  · rw [hassoc1, hmain]
    rw [show forOpenL ++ (body ++ (endifOutL ++ tail)) =
      (forOpenL ++ body) ++ (endifOutL ++ tail) from (List.append_assoc _ _ _).symm]
    exact containsL_append_self endifOutL (forOpenL ++ body) tail

/-- C10 amended witness: body `x ` and tail `y`. -/
theorem C10_amended_range_end_witness :
    (∀ c ∈ ['x', ' '], c ≠ '\x7b' ∧ c ≠ '\x7d') ∧
    (∀ c ∈ ['y'], c ≠ '\x7b' ∧ c ≠ '\x7d') ∧
    (∃ c ∈ ['y'], isSpaceC c = false) ∧
    (convert_go_to_pongo2 (rangeOpenL ++ ['x', ' '] ++ endTokL ++ ['y']) =
      forOpenL ++ ['x', ' '] ++ endifOutL ++ ['y'] ∧
    containsL endifOutL
      (convert_go_to_pongo2 (rangeOpenL ++ ['x', ' '] ++ endTokL ++ ['y'])) =
      true) :=
  ⟨by decide, by decide, by decide,
    C10_amended_range_end ['x', ' '] ['y'] (by decide) (by decide) (by decide)⟩
